import Mathlib

/-!
# PCI Express ATS/PRI test device (`hw/misc/pcie-ats-testdev.c`)

A shallow embedding of the device model: the register block
(`pcie_ats_mmio_read`, `pcie_ats_mmio_write`) and the DMA bottom half
(`pcie_ats_dma_bh`), followed by theorems about them.

Conventions.
* `uint64_t`, `uint32_t` and `uint8_t` values are natural numbers; every store
  truncates to the width of the field it writes.
* The host is little-endian, so the value of a field is the value of its
  little-endian byte image (`ld_le`, `st_le`).
* The collaborators of the bottom half (`pci_dma_rw`, `pcie_ats_page_request`)
  live outside this file; the bottom half is parameterised by them
  (`Collab`), and every call it makes is recorded in order (`Call`).
-/

namespace PcieAts

/-! ## Register layout and constants (`struct dma_state`) -/

/-- The run bit of the command word: `#define PCIE_ATS_DMA_RUN 0x1`. -/
def PCIE_ATS_DMA_RUN : Nat := 0x1

/-- The direction field of the command word:
`#define PCIE_ATS_DMA_DIR(cmd) (((cmd) >> 1) & 0x1)`. -/
def PCIE_ATS_DMA_DIR (cmd : Nat) : Nat := (cmd >>> 1) &&& 0x1

/-- Direction value `# define PCIE_ATS_DMA_FROM_PCI 0`. -/
def PCIE_ATS_DMA_FROM_PCI : Nat := 0

/-- Direction value `# define PCIE_ATS_DMA_TO_PCI 1`. -/
def PCIE_ATS_DMA_TO_PCI : Nat := 1

/-- Size of the transfer buffer: `#define BUF_SIZE 4096`. -/
def BUF_SIZE : Nat := 4096

/-- The transfer buffer `uint8_t buf[BUF_SIZE]`: one byte per index. -/
abbrev Buf : Type := Fin BUF_SIZE → Nat

/-- The register state `struct dma_state`: `uint64_t addr`, `uint32_t cmd`,
`uint8_t buf[BUF_SIZE]`. -/
structure dma_state where
  addr : Nat
  cmd : Nat
  buf : Buf

/-- The device state `struct PCIeATSState`, restricted to the part the
register block and the bottom half touch (`dma`). The bottom half handle
`dma_bh` is fixed at realize time and is represented by the scheduling flag of
`Machine` below. -/
structure PCIeATSState where
  dma : dma_state

/-- The state at device attach time: all fields zero. -/
def PCIeATSState.zero : PCIeATSState :=
  { dma := { addr := 0, cmd := 0, buf := fun _ => 0 } }

/-! ## Types declared outside this file -/

/-- Modelled from the spec: the direction argument of the address-space
transfer primitive (`DMADirection`, declared in the DMA header, not in this
file). The two values carry the names the source uses. -/
inductive DMADirection where
  | DMA_DIRECTION_TO_DEVICE
  | DMA_DIRECTION_FROM_DEVICE
  deriving DecidableEq, Repr

/-- Modelled from the spec: the access permission passed with a translation
request (`IOMMUAccessFlags`, declared in the memory header, not in this
file): none, read-only, write-only, read-write. -/
inductive IOMMUAccessFlags where
  | IOMMU_NONE
  | IOMMU_RO
  | IOMMU_WO
  | IOMMU_RW
  deriving DecidableEq, Repr

/-- Modelled from the spec: the transfer outcome "success" (`MEMTX_OK`,
declared in the memory-attributes header, not in this file). A `MemTxResult`
is a 32-bit word; success is the zero word. -/
def MEMTX_OK : Nat := 0

/-- Modelled from the spec: the transfer outcome "translation access error"
(`MEMTX_ACCESS_ERROR`, declared in the memory-attributes header, not in this
file): a single bit of the result word, distinct from success. Every other
word is an "other" outcome. -/
def MEMTX_ACCESS_ERROR : Nat := 4

/-! ## Little-endian loads and stores (`ldn_le_p`, `ldl_le_p`, `stn_le_p`,
`stl_le_p`) -/

/-- The `sz` bytes at byte offset `off` of the little-endian image of
`field`, as an unsigned number. -/
def ld_le (field off sz : Nat) : Nat :=
  (field / 2 ^ (8 * off)) % 2 ^ (8 * sz)

/-- The value of a `width`-byte field after the low `sz` bytes of `v` are
stored at byte offset `off` of its little-endian image. -/
def st_le (width field off sz v : Nat) : Nat :=
  (field % 2 ^ (8 * off) + (v % 2 ^ (8 * sz)) * 2 ^ (8 * off)
    + (field / 2 ^ (8 * (off + sz))) * 2 ^ (8 * (off + sz))) % 2 ^ (8 * width)

/-- Modelled from the spec: `ldn_le_p(ptr, sz)` (byte-swap header, not in this
file): an unsigned little-endian load of `sz` bytes, defined for `sz` in
1, 2, 4, 8 and aborting (`none`) otherwise. -/
def ldn_le_p (field off sz : Nat) : Option Nat :=
  if sz = 1 ∨ sz = 2 ∨ sz = 4 ∨ sz = 8 then some (ld_le field off sz) else none

/-- Modelled from the spec: `ldl_le_p(ptr)` (byte-swap header, not in this
file): a little-endian load of 4 bytes. Its C return type is `int`, so the
result is the signed reading of the 32-bit word. -/
def ldl_le_p (field off : Nat) : Int :=
  if ld_le field off 4 < 2 ^ 31 then (ld_le field off 4 : Int)
  else (ld_le field off 4 : Int) - 2 ^ 32

/-- Conversion of a C integer to `uint64_t` (the assignment `val = ...`). -/
def to_uint64 (x : Int) : Nat := (x % 2 ^ 64).toNat

/-- Modelled from the spec: `stn_le_p(ptr, sz, v)` (byte-swap header, not in
this file): a little-endian store of the low `sz` bytes of `v`, defined for
`sz` in 1, 2, 4, 8 and aborting (`none`) otherwise. -/
def stn_le_p (width field off sz v : Nat) : Option Nat :=
  if sz = 1 ∨ sz = 2 ∨ sz = 4 ∨ sz = 8 then some (st_le width field off sz v)
  else none

/-- Modelled from the spec: `stl_le_p(ptr, v)` (byte-swap header, not in this
file): a little-endian store of the low 4 bytes of `v`. -/
def stl_le_p (width field off v : Nat) : Nat := st_le width field off 4 v

/-! ## The register block -/

/-- The function `pcie_ats_mmio_read(opaque, addr, size)`. `val` starts as
`~0ULL`; offsets 0x0, 0x4 and 0x8 overwrite it. `none` is the abort of
`ldn_le_p` on an unsupported size. -/
def pcie_ats_mmio_read (s : PCIeATSState) (addr size : Nat) : Option Nat :=
  if addr = 0x0 then ldn_le_p s.dma.addr 0 size
  else if addr = 0x4 then some (to_uint64 (ldl_le_p s.dma.addr 4))
  else if addr = 0x8 then some (to_uint64 (ldl_le_p s.dma.cmd 0))
  else some 0xFFFFFFFFFFFFFFFF

/-- The function `pcie_ats_mmio_write(opaque, addr, val, size)`. The result is
the new device state and the number of `qemu_bh_schedule(dma_bh)` calls made;
`none` is the abort of `stn_le_p` on an unsupported size. -/
def pcie_ats_mmio_write (s : PCIeATSState) (addr val size : Nat) :
    Option (PCIeATSState × Nat) :=
  if addr = 0x0 then
    (stn_le_p 8 s.dma.addr 0 size val).map
      (fun a => ({ s with dma := { s.dma with addr := a } }, 0))
  else if addr = 0x4 then
    some ({ s with dma := { s.dma with addr := stl_le_p 8 s.dma.addr 4 val } }, 0)
  else if addr = 0x8 then
    some ({ s with dma := { s.dma with cmd := stl_le_p 4 s.dma.cmd 0 val } },
          if val &&& PCIE_ATS_DMA_RUN ≠ 0 then 1 else 0)
  else some (s, 0)

/-- The function `pcie_ats_mmio_read(opaque, addr, size)` in state-passing
form: the device state after the call and the value returned. The handler only
loads from the device state; no case of it stores to a field. -/
def pcie_ats_mmio_read_state (s : PCIeATSState) (addr size : Nat) :
    PCIeATSState × Option Nat :=
  if addr = 0x0 then (s, ldn_le_p s.dma.addr 0 size)
  else if addr = 0x4 then (s, some (to_uint64 (ldl_le_p s.dma.addr 4)))
  else if addr = 0x8 then (s, some (to_uint64 (ldl_le_p s.dma.cmd 0)))
  else (s, some 0xFFFFFFFFFFFFFFFF)

/-- Modelled from the spec: the value that a register read of `size` bytes
delivers, the low `size` bytes of what the read handler returns. The register
block is a window read at a width of 4 or 8 bytes; the memory core that calls
the handler with that width is not in this file. -/
def mmio_read_access (s : PCIeATSState) (addr size : Nat) : Option Nat :=
  (pcie_ats_mmio_read s addr size).map (fun r => r % 2 ^ (8 * size))

/-! ## The DMA bottom half -/

/-- One call to a collaborator, with its arguments and its result. -/
inductive Call where
  | pci_dma_rw (addr len : Nat) (dir : DMADirection) (res : Nat)
  | pcie_ats_page_request (addr : Nat) (flags : IOMMUAccessFlags) (ret : Int)
  deriving DecidableEq, Repr

/-- The collaborators of the bottom half, as functions of the state `W` of the
rest of the machine.
* `pci_dma_rw w addr buf len dir` is the transfer primitive: it returns the
  `MemTxResult`, the buffer after the call and the machine after the call.
* `pcie_ats_page_request w addr flags` is the translation request: it returns
  `ret` (0 means accepted: the bottom half will be run again once the
  translation is in place) and the machine after the call. -/
structure Collab (W : Type) where
  pci_dma_rw : W → Nat → Buf → Nat → DMADirection → Nat × Buf × W
  pcie_ats_page_request : W → Nat → IOMMUAccessFlags → Int × W

/-- What one invocation of the bottom half leaves behind. -/
structure BhOutcome (W : Type) where
  state : PCIeATSState
  world : W
  calls : List Call

/-- The direction computed at the top of `pcie_ats_dma_bh`. -/
def dma_dir (cmd : Nat) : DMADirection :=
  if PCIE_ATS_DMA_DIR cmd = PCIE_ATS_DMA_FROM_PCI
  then DMADirection.DMA_DIRECTION_FROM_DEVICE
  else DMADirection.DMA_DIRECTION_TO_DEVICE

/-- The permission computed in the `MEMTX_ACCESS_ERROR` branch of
`pcie_ats_dma_bh`. -/
def dma_flags (cmd : Nat) : IOMMUAccessFlags :=
  if PCIE_ATS_DMA_DIR cmd = PCIE_ATS_DMA_FROM_PCI
  then IOMMUAccessFlags.IOMMU_WO
  else IOMMUAccessFlags.IOMMU_RO

/-- The statement `pcie_ats->dma.cmd &= ~PCIE_ATS_DMA_RUN` on a 32-bit word. -/
def clear_run (s : PCIeATSState) : PCIeATSState :=
  { s with dma := { s.dma with cmd := s.dma.cmd &&& 0xFFFFFFFE } }

/-- The function `pcie_ats_dma_bh(opaque)`. -/
def pcie_ats_dma_bh {W : Type} (env : Collab W) (s : PCIeATSState) (w : W) :
    BhOutcome W :=
  let dir := dma_dir s.dma.cmd
  if s.dma.cmd &&& PCIE_ATS_DMA_RUN = 0 then
    { state := s, world := w, calls := [] }
  else
    let r := env.pci_dma_rw w s.dma.addr s.dma.buf BUF_SIZE dir
    let res := r.1
    let s1 : PCIeATSState := { s with dma := { s.dma with buf := r.2.1 } }
    let c1 := Call.pci_dma_rw s.dma.addr BUF_SIZE dir res
    if res = MEMTX_ACCESS_ERROR then
      let flags := dma_flags s1.dma.cmd
      let q := env.pcie_ats_page_request r.2.2 s1.dma.addr flags
      let c2 := Call.pcie_ats_page_request s1.dma.addr flags q.1
      if q.1 = 0 then
        { state := s1, world := q.2, calls := [c1, c2] }
      else
        { state := clear_run s1, world := q.2, calls := [c1, c2] }
    else
      { state := clear_run s1, world := r.2.2, calls := [c1] }

/-- The translation requests among a list of calls. -/
def page_requests (cs : List Call) : List Call :=
  cs.filter (fun c => match c with
    | Call.pcie_ats_page_request _ _ _ => true
    | _ => false)

/-- The transfer attempts among a list of calls. -/
def transfers (cs : List Call) : List Call :=
  cs.filter (fun c => match c with
    | Call.pci_dma_rw _ _ _ _ => true
    | _ => false)

/-- The number of accepted translation requests (`ret == 0`) among a list of
calls. -/
def accepted (cs : List Call) : Nat :=
  (cs.filter (fun c => match c with
    | Call.pcie_ats_page_request _ _ ret => decide (ret = 0)
    | _ => false)).length

/-! ## The target address space -/

/-- The target address space of a transfer: the byte stored at each address
and whether the address is currently mapped (translated). -/
structure AddressSpace where
  mem : Nat → Nat
  mapped : Nat → Bool

/-- The memory after the first `len` bytes of `buf` are stored at `addr`. -/
def write_bytes (mem : Nat → Nat) (addr : Nat) (buf : Buf) (len : Nat) : Nat → Nat :=
  fun a =>
    if h : addr ≤ a ∧ a - addr < len ∧ a - addr < BUF_SIZE
    then buf ⟨a - addr, h.2.2⟩ else mem a

/-- Modelled from the spec: `pci_dma_rw(pdev, addr, buf, len, dir, attrs)`, the
address-space transfer primitive (PCI device header, not in this file). It
moves `len` bytes between `buf` and the address space starting at `addr` in
one operation and returns `MEMTX_OK`; when part of the range is unmapped the
address space rejects the access: nothing moves and the result is
`MEMTX_ACCESS_ERROR`. The direction values mean what their names say:
`DMA_DIRECTION_FROM_DEVICE` moves the device buffer into the address space
(the access for which the source asks write permission, `IOMMU_WO`), and
`DMA_DIRECTION_TO_DEVICE` moves the address space into the device buffer (the
access for which the source asks read permission, `IOMMU_RO`). -/
def pci_dma_rw (as : AddressSpace) (addr : Nat) (buf : Buf) (len : Nat)
    (dir : DMADirection) : Nat × Buf × AddressSpace :=
  if ∀ i, i < len → as.mapped (addr + i) = true then
    match dir with
    | DMADirection.DMA_DIRECTION_FROM_DEVICE =>
      (MEMTX_OK, buf, { as with mem := write_bytes as.mem addr buf len })
    | DMADirection.DMA_DIRECTION_TO_DEVICE =>
      (MEMTX_OK, (fun i => if i.val < len then as.mem (addr + i.val) else buf i), as)
  else (MEMTX_ACCESS_ERROR, buf, as)

/-- The collaborators over a concrete address space: the transfer primitive
above and an arbitrary translation-request handler. -/
def mem_env (req : AddressSpace → Nat → IOMMUAccessFlags → Int × AddressSpace) :
    Collab AddressSpace :=
  { pci_dma_rw := pci_dma_rw, pcie_ats_page_request := req }

/-! ## The device among its callers -/

/-- The device together with the rest of the machine.
* `bh_scheduled`: `dma_bh` has been scheduled and has not run yet.
  Modelled from the spec: `qemu_bh_schedule` (main-loop header, not in this
  file) is a single-shot deferred execution: the callback runs once, later;
  scheduling an already scheduled bottom half changes nothing.
* `outstanding`: the number of translation requests that were accepted and
  whose resume callback has not fired yet. -/
structure Machine (W : Type) where
  dev : PCIeATSState
  world : W
  bh_scheduled : Bool
  outstanding : Nat

/-- The machine at device attach time. -/
def Machine.init {W : Type} (w : W) : Machine W :=
  { dev := PCIeATSState.zero, world := w, bh_scheduled := false, outstanding := 0 }

/-- The entry points of the device. -/
inductive Event where
  | mmio_write (addr val size : Nat)
  | bh
  | resume
  deriving DecidableEq, Repr

/-- One event. `none` when the event cannot happen: the bottom half fires only
when scheduled, a resume callback fires only for an outstanding request, and a
register write with an unsupported size aborts. -/
def step {W : Type} (env : Collab W) (m : Machine W) : Event → Option (Machine W)
  | Event.mmio_write addr val size =>
    (pcie_ats_mmio_write m.dev addr val size).map (fun p =>
      { m with dev := p.1, bh_scheduled := m.bh_scheduled || decide (0 < p.2) })
  | Event.bh =>
    if m.bh_scheduled = true then
      let r := pcie_ats_dma_bh env m.dev m.world
      some { dev := r.state, world := r.world, bh_scheduled := false,
             outstanding := m.outstanding + accepted r.calls }
    else none
  | Event.resume =>
    if 0 < m.outstanding then
      let r := pcie_ats_dma_bh env m.dev m.world
      some { dev := r.state, world := r.world, bh_scheduled := m.bh_scheduled,
             outstanding := m.outstanding - 1 + accepted r.calls }
    else none

/-- A sequence of events, from left to right. -/
def run {W : Type} (env : Collab W) (m : Machine W) : List Event → Option (Machine W)
  | [] => some m
  | e :: es => (step env m e).bind (fun m1 => run env m1 es)

/-- A write that triggers a run: offset 0x8 with bit 0 of the value set. -/
def is_trigger : Event → Bool
  | Event.mmio_write addr val _ => decide (addr = 0x8) && decide (val &&& PCIE_ATS_DMA_RUN ≠ 0)
  | _ => false

/-- The caller discipline under which requests do not pile up: along the
sequence, no run is triggered while a translation request is outstanding. -/
def disciplined {W : Type} (env : Collab W) (m : Machine W) : List Event → Bool
  | [] => true
  | e :: es =>
    (!is_trigger e || decide (m.outstanding = 0)) &&
    (match step env m e with
      | none => true
      | some m1 => disciplined env m1 es)

/-- The first invocation of the bottom half and `k` re-entries, each on the
device state and the machine that the previous invocation left. -/
def invocations {W : Type} (env : Collab W) : Nat → PCIeATSState → W → List (BhOutcome W)
  | 0, s, w => [pcie_ats_dma_bh env s w]
  | k + 1, s, w =>
    pcie_ats_dma_bh env s w ::
      invocations env k (pcie_ats_dma_bh env s w).state (pcie_ats_dma_bh env s w).world

/-- All calls made by a list of invocations, in order. -/
def all_calls {W : Type} (rs : List (BhOutcome W)) : List Call :=
  (rs.map (fun r => r.calls)).flatten

/-- The scenario "the transfer fails with `MEMTX_ACCESS_ERROR` on the first `n`
attempts, each translation request is accepted, and attempt `n + 1` returns
`MEMTX_OK`", read off the collaborators along the successive invocations. -/
def faults_then_ok {W : Type} (env : Collab W) : Nat → PCIeATSState → W → Bool
  | 0, s, w =>
    decide ((env.pci_dma_rw w s.dma.addr s.dma.buf BUF_SIZE (dma_dir s.dma.cmd)).1
      = MEMTX_OK)
  | k + 1, s, w =>
    decide ((env.pci_dma_rw w s.dma.addr s.dma.buf BUF_SIZE (dma_dir s.dma.cmd)).1
      = MEMTX_ACCESS_ERROR)
    && decide ((env.pcie_ats_page_request
        (env.pci_dma_rw w s.dma.addr s.dma.buf BUF_SIZE (dma_dir s.dma.cmd)).2.2
        s.dma.addr (dma_flags s.dma.cmd)).1 = 0)
    && faults_then_ok env k (pcie_ats_dma_bh env s w).state (pcie_ats_dma_bh env s w).world

/-! ## Concrete collaborators -/

/-- Collaborators that always answer the same: every transfer returns `res`
and leaves the buffer alone, every translation request returns `ret`. -/
def env_const (res : Nat) (ret : Int) : Collab Unit :=
  { pci_dma_rw := fun _ _ buf _ _ => (res, buf, ()),
    pcie_ats_page_request := fun _ _ _ => (ret, ()) }

/-- Collaborators whose state is the number of translations still missing:
a transfer fails with `MEMTX_ACCESS_ERROR` while one is missing, and every
translation request is accepted and supplies one. -/
def env_faults : Collab Nat :=
  { pci_dma_rw := fun n _ buf _ _ =>
      (if 0 < n then MEMTX_ACCESS_ERROR else MEMTX_OK, buf, n),
    pcie_ats_page_request := fun n _ _ => (0, n - 1) }

/-- An address space that is mapped everywhere and holds the byte `b` at every
address. -/
def as_fill (b : Nat) : AddressSpace :=
  { mem := fun _ => b, mapped := fun _ => true }

/-- An address space that is mapped nowhere and holds the byte `b` at every
address. -/
def as_unmapped (b : Nat) : AddressSpace :=
  { mem := fun _ => b, mapped := fun _ => false }

/-- A translation-request handler that accepts every request and maps the
whole address space. -/
def req_map : AddressSpace → Nat → IOMMUAccessFlags → Int × AddressSpace :=
  fun as _ _ => (0, { as with mapped := fun _ => true })

/-- A translation-request handler that rejects every request. -/
def req_reject : AddressSpace → Nat → IOMMUAccessFlags → Int × AddressSpace :=
  fun as _ _ => (1, as)

/-- A device state with the given address and command and a zero buffer. -/
def dev_of (addr cmd : Nat) : PCIeATSState :=
  { dma := { addr := addr, cmd := cmd, buf := fun _ => 0 } }

/-! ## Bit-level facts -/

theorem and_run_eq (c : Nat) : c &&& PCIE_ATS_DMA_RUN = c % 2 := by
  simp [PCIE_ATS_DMA_RUN, Nat.and_one_is_mod]

theorem clear_run_bit (s : PCIeATSState) :
    (clear_run s).dma.cmd &&& PCIE_ATS_DMA_RUN = 0 := by
  have h : (4294967294 : Nat) &&& 1 = 0 := by decide
  simp only [clear_run, PCIE_ATS_DMA_RUN, Nat.and_assoc, h, Nat.and_zero]

theorem dir_eq (c : Nat) : PCIE_ATS_DMA_DIR c = (c / 2) % 2 := by
  simp [PCIE_ATS_DMA_DIR, Nat.and_one_is_mod, Nat.shiftRight_eq_div_pow]

theorem testBit_one (c : Nat) : c.testBit 1 = decide (PCIE_ATS_DMA_DIR c = 1) := by
  rw [dir_eq]
  simp only [Nat.testBit, Nat.and_one_is_mod, Nat.shiftRight_eq_div_pow, pow_one]
  by_cases h : c / 2 % 2 = 1 <;> simp [h]

/-! ## One invocation of the bottom half, case by case -/

theorem bh_idle {W : Type} (env : Collab W) (s : PCIeATSState) (w : W)
    (h : s.dma.cmd &&& PCIE_ATS_DMA_RUN = 0) :
    pcie_ats_dma_bh env s w = { state := s, world := w, calls := [] } := by
  simp [pcie_ats_dma_bh, h]

theorem bh_accepted {W : Type} (env : Collab W) (s : PCIeATSState) (w : W)
    (hrun : s.dma.cmd &&& PCIE_ATS_DMA_RUN ≠ 0)
    (hres : (env.pci_dma_rw w s.dma.addr s.dma.buf BUF_SIZE (dma_dir s.dma.cmd)).1
      = MEMTX_ACCESS_ERROR)
    (hret : (env.pcie_ats_page_request
      (env.pci_dma_rw w s.dma.addr s.dma.buf BUF_SIZE (dma_dir s.dma.cmd)).2.2
      s.dma.addr (dma_flags s.dma.cmd)).1 = 0) :
    pcie_ats_dma_bh env s w =
      { state := { s with dma := { s.dma with
          buf := (env.pci_dma_rw w s.dma.addr s.dma.buf BUF_SIZE (dma_dir s.dma.cmd)).2.1 } },
        world := (env.pcie_ats_page_request
          (env.pci_dma_rw w s.dma.addr s.dma.buf BUF_SIZE (dma_dir s.dma.cmd)).2.2
          s.dma.addr (dma_flags s.dma.cmd)).2,
        calls := [Call.pci_dma_rw s.dma.addr BUF_SIZE (dma_dir s.dma.cmd) MEMTX_ACCESS_ERROR,
          Call.pcie_ats_page_request s.dma.addr (dma_flags s.dma.cmd) 0] } := by
  simp [pcie_ats_dma_bh, hrun, hres, hret]

theorem bh_rejected {W : Type} (env : Collab W) (s : PCIeATSState) (w : W)
    (hrun : s.dma.cmd &&& PCIE_ATS_DMA_RUN ≠ 0)
    (hres : (env.pci_dma_rw w s.dma.addr s.dma.buf BUF_SIZE (dma_dir s.dma.cmd)).1
      = MEMTX_ACCESS_ERROR)
    (hret : (env.pcie_ats_page_request
      (env.pci_dma_rw w s.dma.addr s.dma.buf BUF_SIZE (dma_dir s.dma.cmd)).2.2
      s.dma.addr (dma_flags s.dma.cmd)).1 ≠ 0) :
    pcie_ats_dma_bh env s w =
      { state := clear_run { s with dma := { s.dma with
          buf := (env.pci_dma_rw w s.dma.addr s.dma.buf BUF_SIZE (dma_dir s.dma.cmd)).2.1 } },
        world := (env.pcie_ats_page_request
          (env.pci_dma_rw w s.dma.addr s.dma.buf BUF_SIZE (dma_dir s.dma.cmd)).2.2
          s.dma.addr (dma_flags s.dma.cmd)).2,
        calls := [Call.pci_dma_rw s.dma.addr BUF_SIZE (dma_dir s.dma.cmd) MEMTX_ACCESS_ERROR,
          Call.pcie_ats_page_request s.dma.addr (dma_flags s.dma.cmd)
            (env.pcie_ats_page_request
              (env.pci_dma_rw w s.dma.addr s.dma.buf BUF_SIZE (dma_dir s.dma.cmd)).2.2
              s.dma.addr (dma_flags s.dma.cmd)).1] } := by
  simp [pcie_ats_dma_bh, hrun, hres, hret]

theorem bh_terminal {W : Type} (env : Collab W) (s : PCIeATSState) (w : W)
    (hrun : s.dma.cmd &&& PCIE_ATS_DMA_RUN ≠ 0)
    (hres : (env.pci_dma_rw w s.dma.addr s.dma.buf BUF_SIZE (dma_dir s.dma.cmd)).1
      ≠ MEMTX_ACCESS_ERROR) :
    pcie_ats_dma_bh env s w =
      { state := clear_run { s with dma := { s.dma with
          buf := (env.pci_dma_rw w s.dma.addr s.dma.buf BUF_SIZE (dma_dir s.dma.cmd)).2.1 } },
        world := (env.pci_dma_rw w s.dma.addr s.dma.buf BUF_SIZE (dma_dir s.dma.cmd)).2.2,
        calls := [Call.pci_dma_rw s.dma.addr BUF_SIZE (dma_dir s.dma.cmd)
          (env.pci_dma_rw w s.dma.addr s.dma.buf BUF_SIZE (dma_dir s.dma.cmd)).1] } := by
  simp [pcie_ats_dma_bh, hrun, hres]

/-! ## The number of requests one invocation can add -/

theorem accepted_le_one {W : Type} (env : Collab W) (s : PCIeATSState) (w : W) :
    accepted (pcie_ats_dma_bh env s w).calls ≤ 1 := by
  unfold pcie_ats_dma_bh accepted
  simp only
  split
  · simp
  · split
    · split <;> simp <;> exact List.length_filter_le _ _
    · simp

theorem step_outstanding {W : Type} (env : Collab W) (m m1 : Machine W) (e : Event)
    (hle : m.outstanding ≤ 1)
    (hsched : m.bh_scheduled = true → m.outstanding = 0)
    (htrig : is_trigger e = true → m.outstanding = 0)
    (hstep : step env m e = some m1) :
    m1.outstanding ≤ 1 ∧ (m1.bh_scheduled = true → m1.outstanding = 0) := by
  cases e with
  | mmio_write addr val size =>
    simp only [step, Option.map_eq_some'] at hstep
    obtain ⟨p, hp, rfl⟩ := hstep
    refine ⟨hle, ?_⟩
    simp only [Bool.or_eq_true, decide_eq_true_eq]
    rintro (h | h)
    · exact hsched h
    · apply htrig
      unfold pcie_ats_mmio_write at hp
      split at hp
      · simp only [Option.map_eq_some'] at hp
        obtain ⟨a, _, rfl⟩ := hp
        simp at h
      · split at hp
        · cases hp; simp at h
        · split at hp
          · rename_i h8
            cases hp
            by_cases hv : val &&& PCIE_ATS_DMA_RUN ≠ 0
            · simp [is_trigger, h8, hv]
            · simp [hv] at h
          · cases hp; simp at h
  | bh =>
    simp only [step] at hstep
    split at hstep
    · rename_i hs
      cases hstep
      have := accepted_le_one env m.dev m.world
      have := hsched hs
      simp only
      constructor
      · omega
      · intro h; cases h
    · cases hstep
  | resume =>
    simp only [step] at hstep
    split at hstep
    · rename_i hpos
      cases hstep
      have := accepted_le_one env m.dev m.world
      simp only
      constructor
      · omega
      · intro h
        have := hsched h
        omega
    · cases hstep

theorem run_outstanding {W : Type} (env : Collab W) (evs : List Event) :
    ∀ (m m1 : Machine W), m.outstanding ≤ 1 →
      (m.bh_scheduled = true → m.outstanding = 0) →
      disciplined env m evs = true → run env m evs = some m1 →
      m1.outstanding ≤ 1 := by
  induction evs with
  | nil =>
    intro m m1 hle _ _ hrun
    simp only [run, Option.some.injEq] at hrun
    subst hrun
    exact hle
  | cons e es ih =>
    intro m m1 hle hs hd hrun
    simp only [run, Option.bind_eq_some] at hrun
    obtain ⟨m2, h2, hrest⟩ := hrun
    simp only [disciplined, h2, Bool.and_eq_true, Bool.or_eq_true, Bool.not_eq_true',
      decide_eq_true_eq] at hd
    have htrig : is_trigger e = true → m.outstanding = 0 := by
      intro ht
      rcases hd.1 with h | h
      · rw [ht] at h; cases h
      · exact h
    have := step_outstanding env m m2 e hle hs htrig h2
    exact ih m2 m1 this.1 this.2 hd.2 hrest

/-! ## The register block, case by case -/

theorem write_addr8 (s : PCIeATSState) (v : Nat) (hv : v < 2 ^ 64) :
    pcie_ats_mmio_write s 0x0 v 8
      = some ({ dma := { addr := v, cmd := s.dma.cmd, buf := s.dma.buf } }, 0) := by
  have h : st_le 8 s.dma.addr 0 8 v = v := by
    simp only [st_le]
    norm_num
    omega
  simp [pcie_ats_mmio_write, stn_le_p, h]

theorem write_cmd (s : PCIeATSState) (v size : Nat) (hv : v < 2 ^ 32) :
    pcie_ats_mmio_write s 0x8 v size
      = some ({ dma := { addr := s.dma.addr, cmd := v, buf := s.dma.buf } },
              if v &&& PCIE_ATS_DMA_RUN ≠ 0 then 1 else 0) := by
  have h : st_le 4 s.dma.cmd 0 4 v = v := by
    simp only [st_le]
    norm_num
    omega
  simp [pcie_ats_mmio_write, stl_le_p, h]

/-- Address write, run trigger, bottom half: the machine after the three
events. -/
theorem run_program {W : Type} (env : Collab W) (s0 : PCIeATSState) (w : W)
    (a c : Nat) (ha : a < 2 ^ 64) (hc : c < 2 ^ 32)
    (hrun : c &&& PCIE_ATS_DMA_RUN ≠ 0) :
    run env { dev := s0, world := w, bh_scheduled := false, outstanding := 0 }
        [Event.mmio_write 0x0 a 8, Event.mmio_write 0x8 c 4, Event.bh]
      = some
        { dev := (pcie_ats_dma_bh env
            { dma := { addr := a, cmd := c, buf := s0.dma.buf } } w).state,
          world := (pcie_ats_dma_bh env
            { dma := { addr := a, cmd := c, buf := s0.dma.buf } } w).world,
          bh_scheduled := false,
          outstanding := accepted (pcie_ats_dma_bh env
            { dma := { addr := a, cmd := c, buf := s0.dma.buf } } w).calls } := by
  simp [run, step, write_addr8 _ a ha, write_cmd _ c 4 hc, hrun]

/-! ## The transfer primitive on a mapped range -/

theorem pci_dma_rw_from_device (as : AddressSpace) (addr : Nat) (buf : Buf) (len : Nat)
    (hm : ∀ i, i < len → as.mapped (addr + i) = true) :
    pci_dma_rw as addr buf len DMADirection.DMA_DIRECTION_FROM_DEVICE
      = (MEMTX_OK, buf, { as with mem := write_bytes as.mem addr buf len }) := by
  unfold pci_dma_rw
  rw [if_pos hm]

theorem pci_dma_rw_to_device (as : AddressSpace) (addr : Nat) (buf : Buf) (len : Nat)
    (hm : ∀ i, i < len → as.mapped (addr + i) = true) :
    pci_dma_rw as addr buf len DMADirection.DMA_DIRECTION_TO_DEVICE
      = (MEMTX_OK, (fun i => if i.val < len then as.mem (addr + i.val) else buf i), as) := by
  unfold pci_dma_rw
  rw [if_pos hm]

theorem mem_env_rw (req : AddressSpace → Nat → IOMMUAccessFlags → Int × AddressSpace) :
    (mem_env req).pci_dma_rw = pci_dma_rw := rfl

theorem pci_dma_rw_unmapped (b addr : Nat) (buf : Buf) (dir : DMADirection) :
    pci_dma_rw (as_unmapped b) addr buf BUF_SIZE dir
      = (MEMTX_ACCESS_ERROR, buf, as_unmapped b) := by
  unfold pci_dma_rw
  rw [if_neg]
  intro h
  have := h 0 (by decide)
  simp [as_unmapped] at this

theorem dma_dir_from_pci (c : Nat) (h : PCIE_ATS_DMA_DIR c = PCIE_ATS_DMA_FROM_PCI) :
    dma_dir c = DMADirection.DMA_DIRECTION_FROM_DEVICE := by
  simp [dma_dir, h]

theorem dma_dir_to_pci (c : Nat) (h : PCIE_ATS_DMA_DIR c = PCIE_ATS_DMA_TO_PCI) :
    dma_dir c = DMADirection.DMA_DIRECTION_TO_DEVICE := by
  simp [dma_dir, h, PCIE_ATS_DMA_TO_PCI, PCIE_ATS_DMA_FROM_PCI]

/-- The bottom half over a mapped range, direction `PCIE_ATS_DMA_FROM_PCI`:
the buffer is written to the address space and the run bit is cleared. -/
theorem bh_from_pci (req : AddressSpace → Nat → IOMMUAccessFlags → Int × AddressSpace)
    (s : PCIeATSState) (as : AddressSpace)
    (hrun : s.dma.cmd &&& PCIE_ATS_DMA_RUN ≠ 0)
    (hdir : PCIE_ATS_DMA_DIR s.dma.cmd = PCIE_ATS_DMA_FROM_PCI)
    (hm : ∀ i, i < BUF_SIZE → as.mapped (s.dma.addr + i) = true) :
    pcie_ats_dma_bh (mem_env req) s as =
      { state := clear_run s,
        world := { as with mem := write_bytes as.mem s.dma.addr s.dma.buf BUF_SIZE },
        calls := [Call.pci_dma_rw s.dma.addr BUF_SIZE
          DMADirection.DMA_DIRECTION_FROM_DEVICE MEMTX_OK] } := by
  have e := pci_dma_rw_from_device as s.dma.addr s.dma.buf BUF_SIZE hm
  have := bh_terminal (mem_env req) s as hrun
    (by simp only [mem_env, dma_dir_from_pci _ hdir, e]; decide)
  rw [this]
  simp only [mem_env, dma_dir_from_pci _ hdir, e]

/-- The bottom half over a mapped range, direction `PCIE_ATS_DMA_TO_PCI`: the
address space is read into the buffer and the run bit is cleared. -/
theorem bh_to_pci (req : AddressSpace → Nat → IOMMUAccessFlags → Int × AddressSpace)
    (s : PCIeATSState) (as : AddressSpace)
    (hrun : s.dma.cmd &&& PCIE_ATS_DMA_RUN ≠ 0)
    (hdir : PCIE_ATS_DMA_DIR s.dma.cmd = PCIE_ATS_DMA_TO_PCI)
    (hm : ∀ i, i < BUF_SIZE → as.mapped (s.dma.addr + i) = true) :
    pcie_ats_dma_bh (mem_env req) s as =
      { state := clear_run { s with dma := { s.dma with
          buf := fun i => if i.val < BUF_SIZE then as.mem (s.dma.addr + i.val)
            else s.dma.buf i } },
        world := as,
        calls := [Call.pci_dma_rw s.dma.addr BUF_SIZE
          DMADirection.DMA_DIRECTION_TO_DEVICE MEMTX_OK] } := by
  have e := pci_dma_rw_to_device as s.dma.addr s.dma.buf BUF_SIZE hm
  have := bh_terminal (mem_env req) s as hrun
    (by simp only [mem_env, dma_dir_to_pci _ hdir, e]; decide)
  rw [this]
  simp only [mem_env, dma_dir_to_pci _ hdir, e]

/-! ## Claims about the bottom half, the register block and their callers -/

/-- C1 (P4, single retry then success). For a device whose run bit is set: if
the first transfer attempt returns the translation access error, the
translation request is accepted, and the attempt made on resume (in whatever
state `w1` the rest of the machine is by then) succeeds, then over the two
invocations exactly one translation request is issued, for `addr` and with the
permission of the configured direction; the run bit is 1 and one request is
outstanding after the first invocation; the second invocation makes one
transfer attempt of `BUF_SIZE` bytes at `addr`; and the run bit is 0 at the
end. -/
theorem single_retry_then_success {W : Type} (env : Collab W) (s : PCIeATSState)
    (w w1 : W)
    (hrun : s.dma.cmd &&& PCIE_ATS_DMA_RUN ≠ 0)
    (hfirst : (env.pci_dma_rw w s.dma.addr s.dma.buf BUF_SIZE (dma_dir s.dma.cmd)).1
      = MEMTX_ACCESS_ERROR)
    (hacc : (env.pcie_ats_page_request
      (env.pci_dma_rw w s.dma.addr s.dma.buf BUF_SIZE (dma_dir s.dma.cmd)).2.2
      s.dma.addr (dma_flags s.dma.cmd)).1 = 0)
    (hsecond : (env.pci_dma_rw w1 s.dma.addr
      (env.pci_dma_rw w s.dma.addr s.dma.buf BUF_SIZE (dma_dir s.dma.cmd)).2.1
      BUF_SIZE (dma_dir s.dma.cmd)).1 = MEMTX_OK) :
    page_requests ((pcie_ats_dma_bh env s w).calls
        ++ (pcie_ats_dma_bh env (pcie_ats_dma_bh env s w).state w1).calls)
      = [Call.pcie_ats_page_request s.dma.addr
          (if PCIE_ATS_DMA_DIR s.dma.cmd = PCIE_ATS_DMA_FROM_PCI
            then IOMMUAccessFlags.IOMMU_WO else IOMMUAccessFlags.IOMMU_RO) 0]
    ∧ (pcie_ats_dma_bh env s w).state.dma.cmd &&& PCIE_ATS_DMA_RUN = 1
    ∧ accepted (pcie_ats_dma_bh env s w).calls = 1
    ∧ (pcie_ats_dma_bh env (pcie_ats_dma_bh env s w).state w1).calls
      = [Call.pci_dma_rw s.dma.addr BUF_SIZE (dma_dir s.dma.cmd) MEMTX_OK]
    ∧ (pcie_ats_dma_bh env (pcie_ats_dma_bh env s w).state w1).state.dma.cmd
        &&& PCIE_ATS_DMA_RUN = 0 := by
  have e1 := bh_accepted env s w hrun hfirst hacc
  have hne : (env.pci_dma_rw w1 s.dma.addr
      (env.pci_dma_rw w s.dma.addr s.dma.buf BUF_SIZE (dma_dir s.dma.cmd)).2.1
      BUF_SIZE (dma_dir s.dma.cmd)).1 ≠ MEMTX_ACCESS_ERROR := by
    rw [hsecond]; decide
  have e2 := bh_terminal env (pcie_ats_dma_bh env s w).state w1
    (by rw [e1]; exact hrun) (by rw [e1]; exact hne)
  rw [e2, e1]
  refine ⟨?_, ?_, ?_, ?_, ?_⟩
  · simp [page_requests, dma_flags]
  · have := and_run_eq s.dma.cmd
    rw [and_run_eq] at hrun ⊢
    simp only
    omega
  · simp [accepted]
  · simp [hsecond]
  · exact clear_run_bit _

/-- Witness for C1: one missing translation, supplied by the accepted
request. -/
theorem single_retry_then_success_witness :
    (dev_of 0x1000 1).dma.cmd &&& PCIE_ATS_DMA_RUN ≠ 0
    ∧ page_requests ((pcie_ats_dma_bh env_faults (dev_of 0x1000 1) 1).calls
        ++ (pcie_ats_dma_bh env_faults
              (pcie_ats_dma_bh env_faults (dev_of 0x1000 1) 1).state 0).calls)
      = [Call.pcie_ats_page_request 0x1000 IOMMUAccessFlags.IOMMU_WO 0]
    ∧ (pcie_ats_dma_bh env_faults
        (pcie_ats_dma_bh env_faults (dev_of 0x1000 1) 1).state 0).state.dma.cmd
        &&& PCIE_ATS_DMA_RUN = 0 :=
  ⟨by decide,
   (single_retry_then_success env_faults (dev_of 0x1000 1) 1 0
      (by decide) rfl rfl rfl).1,
   (single_retry_then_success env_faults (dev_of 0x1000 1) 1 0
      (by decide) rfl rfl rfl).2.2.2.2⟩

/-- C2 (P6), as stated, fails: from the all-zero initial state, a second run
trigger written while the first translation request is still outstanding makes
the bottom half issue a second request that is accepted as well; two requests
are then outstanding. -/
theorem two_requests_outstanding :
    ∃ m : Machine Nat,
      run env_faults (Machine.init 2)
        [Event.mmio_write 0x8 0x1 4, Event.bh, Event.mmio_write 0x8 0x1 4, Event.bh]
        = some m
      ∧ m.outstanding = 2 ∧ ¬ m.outstanding ≤ 1 :=
  ⟨_, rfl, rfl, by decide⟩

/-- C2 (P6), amended. From the all-zero initial state, for every behaviour of
the collaborators and every sequence of register writes, bottom-half firings
and resume firings in which no run is triggered (offset 0x8, bit 0 set) while
a translation request is outstanding, at most one translation request is
outstanding in the state reached. -/
theorem at_most_one_outstanding {W : Type} (env : Collab W) (w0 : W)
    (evs : List Event) (m : Machine W)
    (hdisc : disciplined env (Machine.init w0) evs = true)
    (hrun : run env (Machine.init w0) evs = some m) :
    m.outstanding ≤ 1 :=
  run_outstanding env evs (Machine.init w0) m (Nat.zero_le 1) (fun _ => rfl) hdisc hrun

/-- Witness for C2: a transfer that faults once, is resumed and completes,
with an address write in between. -/
theorem at_most_one_outstanding_witness :
    disciplined env_faults (Machine.init 1)
        [Event.mmio_write 0x8 0x1 4, Event.bh, Event.mmio_write 0x0 0x2000 8,
          Event.resume] = true
    ∧ ∃ m : Machine Nat, run env_faults (Machine.init 1)
        [Event.mmio_write 0x8 0x1 4, Event.bh, Event.mmio_write 0x0 0x2000 8,
          Event.resume] = some m ∧ m.outstanding ≤ 1 :=
  ⟨rfl, _, rfl, at_most_one_outstanding env_faults 1
    [Event.mmio_write 0x8 0x1 4, Event.bh, Event.mmio_write 0x0 0x2000 8, Event.resume]
    _ rfl rfl⟩

/-- C3 (P2), as stated, fails: with a zero buffer and a target filled with
0xAB, writing the address 0x1000, then command 0x1, then running the bottom
half leaves byte 0 of the buffer at 0 (not 0xAB) and overwrites the target
byte at 0x1000 with 0. -/
theorem command_one_does_not_fill_buffer :
    ∃ m : Machine AddressSpace,
      run (mem_env req_reject)
        { dev := PCIeATSState.zero, world := as_fill 0xAB, bh_scheduled := false,
          outstanding := 0 }
        [Event.mmio_write 0x0 0x1000 8, Event.mmio_write 0x8 0x1 4, Event.bh] = some m
      ∧ m.dev.dma.buf ⟨0, by decide⟩ = 0
      ∧ (as_fill 0xAB).mem (0x1000 + 0) = 0xAB
      ∧ m.world.mem (0x1000 + 0) = 0
      ∧ ¬ (∀ i : Fin BUF_SIZE, m.dev.dma.buf i = (as_fill 0xAB).mem (0x1000 + i.val)) := by
  refine ⟨_, run_program (mem_env req_reject) PCIeATSState.zero (as_fill 0xAB)
    0x1000 0x1 (by norm_num) (by norm_num) (by decide), ?_⟩
  rw [bh_from_pci req_reject _ _ (by decide) (by decide) (by intro i _; rfl)]
  refine ⟨rfl, rfl, ?_, ?_⟩
  · simp [write_bytes, BUF_SIZE, PCIeATSState.zero]
  · intro h
    have := h ⟨0, by decide⟩
    simp [clear_run, PCIeATSState.zero, as_fill] at this

/-- C3 (P2), amended. For every initial device state, every 64-bit address `A`
and every target address space in which the `BUF_SIZE` bytes at `A` are
mapped: an 8-byte write of `A` at offset 0x0, then a write of 0x1 at offset
0x8 (direction bit 0, `PCIE_ATS_DMA_FROM_PCI`), then the scheduled bottom half
leave the buffer unchanged, store the `BUF_SIZE` buffer bytes in the target
address space starting at `A` (the rest of the target unchanged), and leave
the run bit 0. -/
theorem command_one_writes_buffer_to_target (s0 : PCIeATSState) (A : Nat)
    (as : AddressSpace)
    (req : AddressSpace → Nat → IOMMUAccessFlags → Int × AddressSpace)
    (hA : A < 2 ^ 64)
    (hmap : ∀ i, i < BUF_SIZE → as.mapped (A + i) = true) :
    ∃ m : Machine AddressSpace,
      run (mem_env req)
        { dev := s0, world := as, bh_scheduled := false, outstanding := 0 }
        [Event.mmio_write 0x0 A 8, Event.mmio_write 0x8 0x1 4, Event.bh] = some m
      ∧ m.dev.dma.buf = s0.dma.buf
      ∧ (∀ i : Fin BUF_SIZE, m.world.mem (A + i.val) = s0.dma.buf i)
      ∧ (∀ a, a < A ∨ A + BUF_SIZE ≤ a → m.world.mem a = as.mem a)
      ∧ m.world.mapped = as.mapped
      ∧ m.dev.dma.cmd &&& PCIE_ATS_DMA_RUN = 0
      ∧ m.bh_scheduled = false ∧ m.outstanding = 0 := by
  refine ⟨_, run_program (mem_env req) s0 as A 0x1 hA (by norm_num) (by decide), ?_⟩
  rw [bh_from_pci req _ _ (show 1 &&& PCIE_ATS_DMA_RUN ≠ 0 by decide)
    (show PCIE_ATS_DMA_DIR 1 = PCIE_ATS_DMA_FROM_PCI by decide) hmap]
  refine ⟨rfl, ?_, ?_, rfl, clear_run_bit _, rfl, ?_⟩
  · intro i
    have hi := i.isLt
    simp [write_bytes, hi]
  · intro a ha
    have : ¬ (A ≤ a ∧ a - A < BUF_SIZE ∧ a - A < BUF_SIZE) := by omega
    simp only [write_bytes]
    rw [dif_neg this]
  · simp [accepted]

/-- Witness for C3: a zero device and a target filled with 0xAB. -/
theorem command_one_writes_buffer_to_target_witness :
    (0x1000 : Nat) < 2 ^ 64
    ∧ (∀ i, i < BUF_SIZE → (as_fill 0xAB).mapped (0x1000 + i) = true)
    ∧ ∃ m : Machine AddressSpace,
      run (mem_env req_reject)
        { dev := PCIeATSState.zero, world := as_fill 0xAB, bh_scheduled := false,
          outstanding := 0 }
        [Event.mmio_write 0x0 0x1000 8, Event.mmio_write 0x8 0x1 4, Event.bh] = some m
      ∧ m.dev.dma.buf = PCIeATSState.zero.dma.buf
      ∧ (∀ i : Fin BUF_SIZE, m.world.mem (0x1000 + i.val) = PCIeATSState.zero.dma.buf i)
      ∧ (∀ a, a < 0x1000 ∨ 0x1000 + BUF_SIZE ≤ a → m.world.mem a = (as_fill 0xAB).mem a)
      ∧ m.world.mapped = (as_fill 0xAB).mapped
      ∧ m.dev.dma.cmd &&& PCIE_ATS_DMA_RUN = 0
      ∧ m.bh_scheduled = false ∧ m.outstanding = 0 :=
  ⟨by norm_num, fun _ _ => rfl,
   command_one_writes_buffer_to_target PCIeATSState.zero 0x1000 (as_fill 0xAB)
     req_reject (by norm_num) (fun _ _ => rfl)⟩

/-- C4 (P3), as stated, fails: with command 0x3 (run, direction bit 1), a
buffer filled with 0x55 and a mapped target filled with 0, the bottom half
completes with `MEMTX_OK`, the target byte at `addr` is still 0 (not 0x55) and
byte 0 of the buffer has become 0. -/
theorem direction_one_does_not_write_target :
    (pcie_ats_dma_bh (mem_env req_reject)
        { dma := { addr := 0x1000, cmd := 0x3, buf := fun _ => 0x55 } } (as_fill 0)).calls
      = [Call.pci_dma_rw 0x1000 BUF_SIZE DMADirection.DMA_DIRECTION_TO_DEVICE MEMTX_OK]
    ∧ (pcie_ats_dma_bh (mem_env req_reject)
        { dma := { addr := 0x1000, cmd := 0x3, buf := fun _ => 0x55 } } (as_fill 0)).world.mem
          (0x1000 + 0) = 0
    ∧ (pcie_ats_dma_bh (mem_env req_reject)
        { dma := { addr := 0x1000, cmd := 0x3, buf := fun _ => 0x55 } } (as_fill 0)).state.dma.buf
          ⟨0, by decide⟩ = 0
    ∧ ¬ (∀ i : Fin BUF_SIZE,
        (pcie_ats_dma_bh (mem_env req_reject)
          { dma := { addr := 0x1000, cmd := 0x3, buf := fun _ => 0x55 } }
          (as_fill 0)).world.mem (0x1000 + i.val) = 0x55) := by
  rw [bh_to_pci req_reject _ _ (by decide) (by decide) (by intro i _; rfl)]
  refine ⟨rfl, rfl, ?_, ?_⟩
  · simp [clear_run, BUF_SIZE, as_fill]
  · intro h
    have := h ⟨0, by decide⟩
    simp [as_fill] at this

/-- C4 (P3), amended. For every device state with the run bit set and the
direction bit (command bit 1) equal to 1, every buffer content and every
target address space in which the `BUF_SIZE` bytes at `addr` are mapped: the
bottom half makes one transfer that returns `MEMTX_OK`; afterwards the buffer
holds the `BUF_SIZE` bytes of the target address space starting at `addr`,
the target address space is unchanged, and the run bit is 0. -/
theorem direction_one_reads_target_into_buffer (s : PCIeATSState) (as : AddressSpace)
    (req : AddressSpace → Nat → IOMMUAccessFlags → Int × AddressSpace)
    (hrun : s.dma.cmd &&& PCIE_ATS_DMA_RUN ≠ 0)
    (hdir : s.dma.cmd.testBit 1 = true)
    (hmap : ∀ i, i < BUF_SIZE → as.mapped (s.dma.addr + i) = true) :
    (pcie_ats_dma_bh (mem_env req) s as).calls
      = [Call.pci_dma_rw s.dma.addr BUF_SIZE DMADirection.DMA_DIRECTION_TO_DEVICE MEMTX_OK]
    ∧ (∀ i : Fin BUF_SIZE,
        (pcie_ats_dma_bh (mem_env req) s as).state.dma.buf i = as.mem (s.dma.addr + i.val))
    ∧ (pcie_ats_dma_bh (mem_env req) s as).world = as
    ∧ (pcie_ats_dma_bh (mem_env req) s as).state.dma.cmd &&& PCIE_ATS_DMA_RUN = 0 := by
  have hd : PCIE_ATS_DMA_DIR s.dma.cmd = PCIE_ATS_DMA_TO_PCI := by
    rw [testBit_one] at hdir
    simpa [PCIE_ATS_DMA_TO_PCI] using hdir
  rw [bh_to_pci req s as hrun hd hmap]
  refine ⟨rfl, ?_, rfl, clear_run_bit _⟩
  intro i
  have hi := i.isLt
  simp [clear_run, hi]

/-- Witness for C4: command 0x3, a buffer of 0x55 and a target of zeros. -/
theorem direction_one_reads_target_into_buffer_witness :
    (0x3 : Nat) &&& PCIE_ATS_DMA_RUN ≠ 0 ∧ (0x3 : Nat).testBit 1 = true
    ∧ (∀ i : Fin BUF_SIZE,
        (pcie_ats_dma_bh (mem_env req_reject)
          { dma := { addr := 0x1000, cmd := 0x3, buf := fun _ => 0x55 } }
          (as_fill 0)).state.dma.buf i = 0) :=
  ⟨by decide, by decide,
   (direction_one_reads_target_into_buffer
      { dma := { addr := 0x1000, cmd := 0x3, buf := fun _ => 0x55 } } (as_fill 0)
      req_reject (by decide) (by decide) (fun _ _ => rfl)).2.1⟩

/-- C5 (P5, rejected retry). For every device state with the run bit set: if
the transfer attempt returns the translation access error and the translation
request is rejected (`ret` is not 0), then the one invocation ends with the
run bit 0, has made exactly one transfer attempt and exactly one translation
request, none of them accepted, and schedules nothing: when the invocation is
a firing of the scheduled bottom half, the bottom half is no longer scheduled
afterwards and the number of outstanding requests is what it was, so that with
none outstanding neither a firing nor a resume can follow. -/
theorem rejected_retry {W : Type} (env : Collab W) (s : PCIeATSState) (w : W)
    (hrun : s.dma.cmd &&& PCIE_ATS_DMA_RUN ≠ 0)
    (hres : (env.pci_dma_rw w s.dma.addr s.dma.buf BUF_SIZE (dma_dir s.dma.cmd)).1
      = MEMTX_ACCESS_ERROR)
    (hret : (env.pcie_ats_page_request
      (env.pci_dma_rw w s.dma.addr s.dma.buf BUF_SIZE (dma_dir s.dma.cmd)).2.2
      s.dma.addr (dma_flags s.dma.cmd)).1 ≠ 0) :
    (pcie_ats_dma_bh env s w).state.dma.cmd &&& PCIE_ATS_DMA_RUN = 0
    ∧ transfers (pcie_ats_dma_bh env s w).calls
      = [Call.pci_dma_rw s.dma.addr BUF_SIZE (dma_dir s.dma.cmd) MEMTX_ACCESS_ERROR]
    ∧ (page_requests (pcie_ats_dma_bh env s w).calls).length = 1
    ∧ accepted (pcie_ats_dma_bh env s w).calls = 0
    ∧ (∀ n : Nat,
        step env { dev := s, world := w, bh_scheduled := true, outstanding := n } Event.bh
          = some { dev := (pcie_ats_dma_bh env s w).state,
                   world := (pcie_ats_dma_bh env s w).world,
                   bh_scheduled := false, outstanding := n })
    ∧ step env { dev := (pcie_ats_dma_bh env s w).state,
                 world := (pcie_ats_dma_bh env s w).world,
                 bh_scheduled := false, outstanding := 0 } Event.bh = none
    ∧ step env { dev := (pcie_ats_dma_bh env s w).state,
                 world := (pcie_ats_dma_bh env s w).world,
                 bh_scheduled := false, outstanding := 0 } Event.resume = none := by
  have e := bh_rejected env s w hrun hres hret
  have hacc : accepted (pcie_ats_dma_bh env s w).calls = 0 := by
    rw [e]; simp [accepted, hret]
  refine ⟨?_, ?_, ?_, hacc, ?_, ?_, ?_⟩
  · rw [e]; exact clear_run_bit _
  · rw [e]; simp [transfers]
  · rw [e]; simp [page_requests]
  · intro n
    simp [step, hacc]
  · simp [step]
  · simp [step]

/-- Witness for C5: every transfer faults and every request is rejected. -/
theorem rejected_retry_witness :
    (dev_of 0x1000 1).dma.cmd &&& PCIE_ATS_DMA_RUN ≠ 0
    ∧ (pcie_ats_dma_bh (env_const MEMTX_ACCESS_ERROR 1) (dev_of 0x1000 1) ()).state.dma.cmd
        &&& PCIE_ATS_DMA_RUN = 0
    ∧ transfers (pcie_ats_dma_bh (env_const MEMTX_ACCESS_ERROR 1) (dev_of 0x1000 1) ()).calls
      = [Call.pci_dma_rw 0x1000 BUF_SIZE DMADirection.DMA_DIRECTION_FROM_DEVICE
          MEMTX_ACCESS_ERROR] :=
  ⟨by decide,
   (rejected_retry (env_const MEMTX_ACCESS_ERROR 1) (dev_of 0x1000 1) ()
      (by decide) rfl (by decide)).1,
   (rejected_retry (env_const MEMTX_ACCESS_ERROR 1) (dev_of 0x1000 1) ()
      (by decide) rfl (by decide)).2.1⟩

/-- C6 (P1, idle no-op). With the run bit clear, the bottom half leaves the
device state (`addr`, `cmd`, `buf`) and the rest of the machine unchanged and
calls neither the transfer primitive nor the translation request. -/
theorem idle_noop {W : Type} (env : Collab W) (s : PCIeATSState) (w : W)
    (hidle : s.dma.cmd &&& PCIE_ATS_DMA_RUN = 0) :
    (pcie_ats_dma_bh env s w).state = s
    ∧ (pcie_ats_dma_bh env s w).world = w
    ∧ (pcie_ats_dma_bh env s w).calls = [] := by
  rw [bh_idle env s w hidle]
  exact ⟨rfl, rfl, rfl⟩

/-- Witness for C6: command 0x2 (direction bit set, run bit clear). -/
theorem idle_noop_witness :
    (dev_of 0x1000 0x2).dma.cmd &&& PCIE_ATS_DMA_RUN = 0
    ∧ (pcie_ats_dma_bh (env_const MEMTX_ACCESS_ERROR 0) (dev_of 0x1000 0x2) ()).state
        = dev_of 0x1000 0x2
    ∧ (pcie_ats_dma_bh (env_const MEMTX_ACCESS_ERROR 0) (dev_of 0x1000 0x2) ()).world = ()
    ∧ (pcie_ats_dma_bh (env_const MEMTX_ACCESS_ERROR 0) (dev_of 0x1000 0x2) ()).calls = [] :=
  ⟨by decide, idle_noop (env_const MEMTX_ACCESS_ERROR 0) (dev_of 0x1000 0x2) () (by decide)⟩

/-- C7 (other transfer outcomes are terminal). With the run bit set, a
transfer result that is neither `MEMTX_OK` nor exactly `MEMTX_ACCESS_ERROR`
makes the bottom half clear the run bit without issuing a translation
request. -/
theorem other_outcome_terminal {W : Type} (env : Collab W) (s : PCIeATSState) (w : W)
    (hrun : s.dma.cmd &&& PCIE_ATS_DMA_RUN ≠ 0)
    (_hnok : (env.pci_dma_rw w s.dma.addr s.dma.buf BUF_SIZE (dma_dir s.dma.cmd)).1
      ≠ MEMTX_OK)
    (hnacc : (env.pci_dma_rw w s.dma.addr s.dma.buf BUF_SIZE (dma_dir s.dma.cmd)).1
      ≠ MEMTX_ACCESS_ERROR) :
    (pcie_ats_dma_bh env s w).state.dma.cmd &&& PCIE_ATS_DMA_RUN = 0
    ∧ page_requests (pcie_ats_dma_bh env s w).calls = [] := by
  rw [bh_terminal env s w hrun hnacc]
  exact ⟨clear_run_bit _, by simp [page_requests]⟩

/-- Witness for C7: the result word 5, which has the access-error bit set
together with another bit. -/
theorem other_outcome_terminal_witness :
    (5 : Nat) ≠ MEMTX_OK ∧ (5 : Nat) ≠ MEMTX_ACCESS_ERROR
    ∧ (pcie_ats_dma_bh (env_const 5 0) (dev_of 0x1000 0x3) ()).state.dma.cmd
        &&& PCIE_ATS_DMA_RUN = 0
    ∧ page_requests (pcie_ats_dma_bh (env_const 5 0) (dev_of 0x1000 0x3) ()).calls = [] :=
  ⟨by decide, by decide,
   other_outcome_terminal (env_const 5 0) (dev_of 0x1000 0x3) ()
     (by decide) (by decide) (by decide)⟩

/-- C8 (requested permission matches direction), as stated, fails: with
command 0x3 (direction bit 1) over an unmapped target filled with 0xAB, the
bottom half requests `IOMMU_RO`, not `IOMMU_WO`, although the direction is
"from target into buffer": once the request has mapped the range, the resumed
transfer fills the buffer with 0xAB and leaves the target as it was. -/
theorem target_into_buffer_requests_read_only :
    (pcie_ats_dma_bh (mem_env req_map) (dev_of 0x1000 0x3) (as_unmapped 0xAB)).calls
      = [Call.pci_dma_rw 0x1000 BUF_SIZE DMADirection.DMA_DIRECTION_TO_DEVICE
            MEMTX_ACCESS_ERROR,
          Call.pcie_ats_page_request 0x1000 IOMMUAccessFlags.IOMMU_RO 0]
    ∧ IOMMUAccessFlags.IOMMU_RO ≠ IOMMUAccessFlags.IOMMU_WO
    ∧ (pcie_ats_dma_bh (mem_env req_map)
        (pcie_ats_dma_bh (mem_env req_map) (dev_of 0x1000 0x3) (as_unmapped 0xAB)).state
        (pcie_ats_dma_bh (mem_env req_map) (dev_of 0x1000 0x3) (as_unmapped 0xAB)).world).calls
      = [Call.pci_dma_rw 0x1000 BUF_SIZE DMADirection.DMA_DIRECTION_TO_DEVICE MEMTX_OK]
    ∧ (dev_of 0x1000 0x3).dma.buf ⟨0, by decide⟩ = 0
    ∧ (pcie_ats_dma_bh (mem_env req_map)
        (pcie_ats_dma_bh (mem_env req_map) (dev_of 0x1000 0x3) (as_unmapped 0xAB)).state
        (pcie_ats_dma_bh (mem_env req_map) (dev_of 0x1000 0x3) (as_unmapped 0xAB)).world
        ).state.dma.buf ⟨0, by decide⟩ = 0xAB
    ∧ (pcie_ats_dma_bh (mem_env req_map)
        (pcie_ats_dma_bh (mem_env req_map) (dev_of 0x1000 0x3) (as_unmapped 0xAB)).state
        (pcie_ats_dma_bh (mem_env req_map) (dev_of 0x1000 0x3) (as_unmapped 0xAB)).world
        ).world.mem 0x1000 = 0xAB := by
  have hd : dma_dir (dev_of 0x1000 0x3).dma.cmd = DMADirection.DMA_DIRECTION_TO_DEVICE := rfl
  have hu : (mem_env req_map).pci_dma_rw (as_unmapped 0xAB) (dev_of 0x1000 0x3).dma.addr
      (dev_of 0x1000 0x3).dma.buf BUF_SIZE (dma_dir (dev_of 0x1000 0x3).dma.cmd)
      = (MEMTX_ACCESS_ERROR, (dev_of 0x1000 0x3).dma.buf, as_unmapped 0xAB) := by
    rw [hd, mem_env_rw, pci_dma_rw_unmapped]
  have hres : ((mem_env req_map).pci_dma_rw (as_unmapped 0xAB) (dev_of 0x1000 0x3).dma.addr
      (dev_of 0x1000 0x3).dma.buf BUF_SIZE (dma_dir (dev_of 0x1000 0x3).dma.cmd)).1
      = MEMTX_ACCESS_ERROR := by
    rw [hu]
  have hret : ((mem_env req_map).pcie_ats_page_request
      ((mem_env req_map).pci_dma_rw (as_unmapped 0xAB) (dev_of 0x1000 0x3).dma.addr
        (dev_of 0x1000 0x3).dma.buf BUF_SIZE (dma_dir (dev_of 0x1000 0x3).dma.cmd)).2.2
      (dev_of 0x1000 0x3).dma.addr (dma_flags (dev_of 0x1000 0x3).dma.cmd)).1 = 0 := by
    rw [hu]
    rfl
  have e1 : pcie_ats_dma_bh (mem_env req_map) (dev_of 0x1000 0x3) (as_unmapped 0xAB)
      = { state := dev_of 0x1000 0x3, world := as_fill 0xAB,
          calls := [Call.pci_dma_rw 0x1000 BUF_SIZE DMADirection.DMA_DIRECTION_TO_DEVICE
              MEMTX_ACCESS_ERROR,
            Call.pcie_ats_page_request 0x1000 IOMMUAccessFlags.IOMMU_RO 0] } := by
    rw [bh_accepted (mem_env req_map) (dev_of 0x1000 0x3) (as_unmapped 0xAB)
      (by decide) hres hret, hu]
    rfl
  have hb := bh_to_pci req_map (dev_of 0x1000 0x3) (as_fill 0xAB)
    (by decide) (by decide) (by intro i _; rfl)
  have key : ∀ r : BhOutcome AddressSpace,
      r.state = dev_of 0x1000 0x3 → r.world = as_fill 0xAB →
      (pcie_ats_dma_bh (mem_env req_map) r.state r.world).calls
        = [Call.pci_dma_rw 0x1000 BUF_SIZE DMADirection.DMA_DIRECTION_TO_DEVICE MEMTX_OK]
      ∧ (pcie_ats_dma_bh (mem_env req_map) r.state r.world).state.dma.buf ⟨0, by decide⟩
        = 0xAB
      ∧ (pcie_ats_dma_bh (mem_env req_map) r.state r.world).world.mem 0x1000 = 0xAB := by
    intro r hs hw
    rw [hs, hw, hb]
    refine ⟨rfl, ?_, rfl⟩
    simp [clear_run, BUF_SIZE, as_fill]
  have hk := key (pcie_ats_dma_bh (mem_env req_map) (dev_of 0x1000 0x3) (as_unmapped 0xAB))
    (by rw [e1]) (by rw [e1])
  exact ⟨by rw [e1], by decide, hk.1, rfl, hk.2.1, hk.2.2⟩

/-- C8 (requested permission matches direction), amended. Whenever the bottom
half issues a translation request, the address it passes is `addr`, and the
permission it passes is `IOMMU_WO` when command bit 1 is 0, the direction
`DMA_DIRECTION_FROM_DEVICE` that moves the buffer into the target, and
`IOMMU_RO` when command bit 1 is 1, the direction `DMA_DIRECTION_TO_DEVICE`
that moves the target into the buffer: over a mapped range, the transfer in
the direction of the request writes the target and keeps the buffer when the
permission is `IOMMU_WO`, and reads the target and keeps it when the
permission is `IOMMU_RO`. -/
theorem request_permission {W : Type} (env : Collab W) (s : PCIeATSState) (w : W)
    (a : Nat) (f : IOMMUAccessFlags) (ret : Int)
    (hcall : Call.pcie_ats_page_request a f ret ∈ (pcie_ats_dma_bh env s w).calls) :
    a = s.dma.addr
    ∧ (s.dma.cmd.testBit 1 = false →
        f = IOMMUAccessFlags.IOMMU_WO
        ∧ dma_dir s.dma.cmd = DMADirection.DMA_DIRECTION_FROM_DEVICE)
    ∧ (s.dma.cmd.testBit 1 = true →
        f = IOMMUAccessFlags.IOMMU_RO
        ∧ dma_dir s.dma.cmd = DMADirection.DMA_DIRECTION_TO_DEVICE)
    ∧ (∀ (as : AddressSpace) (buf : Buf),
        (∀ i, i < BUF_SIZE → as.mapped (s.dma.addr + i) = true) →
        (f = IOMMUAccessFlags.IOMMU_WO →
          (pci_dma_rw as s.dma.addr buf BUF_SIZE (dma_dir s.dma.cmd)).2.1 = buf
          ∧ ∀ i : Fin BUF_SIZE,
              (pci_dma_rw as s.dma.addr buf BUF_SIZE (dma_dir s.dma.cmd)).2.2.mem
                (s.dma.addr + i.val) = buf i)
        ∧ (f = IOMMUAccessFlags.IOMMU_RO →
          (pci_dma_rw as s.dma.addr buf BUF_SIZE (dma_dir s.dma.cmd)).2.2 = as
          ∧ ∀ i : Fin BUF_SIZE,
              (pci_dma_rw as s.dma.addr buf BUF_SIZE (dma_dir s.dma.cmd)).2.1 i
                = as.mem (s.dma.addr + i.val))) := by
  have key : a = s.dma.addr ∧ f = dma_flags s.dma.cmd := by
    unfold pcie_ats_dma_bh at hcall
    simp only at hcall
    split at hcall
    · simp at hcall
    · split at hcall
      · split at hcall <;>
          simp only [List.mem_cons, List.mem_singleton, Call.pcie_ats_page_request.injEq,
            List.not_mem_nil, or_false, false_or, reduceCtorEq] at hcall <;>
          exact ⟨hcall.1, hcall.2.1⟩
      · simp at hcall
  obtain ⟨ha, hfl⟩ := key
  have h01 : PCIE_ATS_DMA_DIR s.dma.cmd = 0 ∨ PCIE_ATS_DMA_DIR s.dma.cmd = 1 := by
    rw [dir_eq]; omega
  rcases h01 with h | h
  · have hbit : s.dma.cmd.testBit 1 = false := by
      rw [testBit_one]; simp [h]
    have hf : f = IOMMUAccessFlags.IOMMU_WO := by
      rw [hfl]; simp [dma_flags, h, PCIE_ATS_DMA_FROM_PCI]
    have hd := dma_dir_from_pci s.dma.cmd h
    refine ⟨ha, fun _ => ⟨hf, hd⟩, fun hc => ?_, ?_⟩
    · rw [hbit] at hc; cases hc
    · intro as buf hmap
      rw [hd, pci_dma_rw_from_device as s.dma.addr buf BUF_SIZE hmap]
      refine ⟨fun _ => ⟨rfl, ?_⟩, fun hc => ?_⟩
      · intro i
        have hi := i.isLt
        simp [write_bytes, hi]
      · rw [hf] at hc; cases hc
  · have hbit : s.dma.cmd.testBit 1 = true := by
      rw [testBit_one]; simp [h]
    have hf : f = IOMMUAccessFlags.IOMMU_RO := by
      rw [hfl]; simp [dma_flags, h, PCIE_ATS_DMA_FROM_PCI]
    have hd := dma_dir_to_pci s.dma.cmd h
    refine ⟨ha, fun hc => ?_, fun _ => ⟨hf, hd⟩, ?_⟩
    · rw [hbit] at hc; cases hc
    · intro as buf hmap
      rw [hd, pci_dma_rw_to_device as s.dma.addr buf BUF_SIZE hmap]
      refine ⟨fun hc => ?_, fun _ => ⟨rfl, ?_⟩⟩
      · rw [hf] at hc; cases hc
      · intro i
        have hi := i.isLt
        simp [hi]

/-- Witness for C8: command 0x3 faults and asks for read permission. -/
theorem request_permission_witness :
    Call.pcie_ats_page_request 0x1000 IOMMUAccessFlags.IOMMU_RO 0
      ∈ (pcie_ats_dma_bh (env_const MEMTX_ACCESS_ERROR 0) (dev_of 0x1000 0x3) ()).calls
    ∧ 0x1000 = (dev_of 0x1000 0x3).dma.addr
    ∧ ((dev_of 0x1000 0x3).dma.cmd.testBit 1 = true →
        IOMMUAccessFlags.IOMMU_RO = IOMMUAccessFlags.IOMMU_RO
        ∧ dma_dir (dev_of 0x1000 0x3).dma.cmd = DMADirection.DMA_DIRECTION_TO_DEVICE) :=
  ⟨by decide,
   (request_permission (env_const MEMTX_ACCESS_ERROR 0) (dev_of 0x1000 0x3) ()
     0x1000 IOMMUAccessFlags.IOMMU_RO 0 (by decide)).1,
   (request_permission (env_const MEMTX_ACCESS_ERROR 0) (dev_of 0x1000 0x3) ()
     0x1000 IOMMUAccessFlags.IOMMU_RO 0 (by decide)).2.2.1⟩

/-- C9 (P7, register width independence). For every device state and all
32-bit values `lo` and `hi`, a 4-byte write of `lo` at offset 0x0 followed by
a 4-byte write of `hi` at offset 0x4 reaches the same device state as one
8-byte write of `hi * 2^32 + lo` at offset 0x0: `addr` is `hi * 2^32 + lo`,
`cmd` and `buf` are unchanged, and no write schedules the bottom half. -/
theorem width_independence (s : PCIeATSState) (lo hi : Nat)
    (hlo : lo < 2 ^ 32) (hhi : hi < 2 ^ 32) :
    ∃ s1 : PCIeATSState,
      pcie_ats_mmio_write s 0x0 lo 4 = some (s1, 0)
      ∧ pcie_ats_mmio_write s1 0x4 hi 4
        = some ({ dma := { addr := hi * 2 ^ 32 + lo, cmd := s.dma.cmd, buf := s.dma.buf } }, 0)
      ∧ pcie_ats_mmio_write s 0x0 (hi * 2 ^ 32 + lo) 8
        = some ({ dma := { addr := hi * 2 ^ 32 + lo, cmd := s.dma.cmd, buf := s.dma.buf } }, 0) := by
  refine ⟨{ dma := { s.dma with addr := st_le 8 s.dma.addr 0 4 lo } }, ?_, ?_, ?_⟩
  · simp [pcie_ats_mmio_write, stn_le_p]
  · have h : st_le 8 (st_le 8 s.dma.addr 0 4 lo) 4 4 hi = hi * 2 ^ 32 + lo := by
      simp only [st_le]
      norm_num
      omega
    simp [pcie_ats_mmio_write, stl_le_p, h]
  · exact write_addr8 s (hi * 2 ^ 32 + lo) (by omega)

/-- Witness for C9: the halves 0x55667788 and 0x11223344 over an address and
a command that were already set. -/
theorem width_independence_witness :
    (0x55667788 : Nat) < 2 ^ 32 ∧ (0x11223344 : Nat) < 2 ^ 32
    ∧ ∃ s1 : PCIeATSState,
      pcie_ats_mmio_write (dev_of 0xFFFFFFFFFFFFFFFF 0x2) 0x0 0x55667788 4 = some (s1, 0)
      ∧ pcie_ats_mmio_write s1 0x4 0x11223344 4
        = some ({ dma := { addr := 0x11223344 * 2 ^ 32 + 0x55667788,
                           cmd := (dev_of 0xFFFFFFFFFFFFFFFF 0x2).dma.cmd,
                           buf := (dev_of 0xFFFFFFFFFFFFFFFF 0x2).dma.buf } }, 0)
      ∧ pcie_ats_mmio_write (dev_of 0xFFFFFFFFFFFFFFFF 0x2) 0x0
          (0x11223344 * 2 ^ 32 + 0x55667788) 8
        = some ({ dma := { addr := 0x11223344 * 2 ^ 32 + 0x55667788,
                           cmd := (dev_of 0xFFFFFFFFFFFFFFFF 0x2).dma.cmd,
                           buf := (dev_of 0xFFFFFFFFFFFFFFFF 0x2).dma.buf } }, 0) :=
  ⟨by norm_num, by norm_num,
   width_independence (dev_of 0xFFFFFFFFFFFFFFFF 0x2) 0x55667788 0x11223344
     (by norm_num) (by norm_num)⟩

/-- C10 (P8, undefined offset read). For every device state, every access
size and every offset other than 0x0, 0x4 and 0x8, the read returns the value
with all 64 bits set and does not abort. -/
theorem undefined_offset_read (s : PCIeATSState) (addr size : Nat)
    (h0 : addr ≠ 0x0) (h4 : addr ≠ 0x4) (h8 : addr ≠ 0x8) :
    pcie_ats_mmio_read s addr size = some 0xFFFFFFFFFFFFFFFF
    ∧ (0xFFFFFFFFFFFFFFFF : Nat) = 2 ^ 64 - 1 := by
  simp [pcie_ats_mmio_read, h0, h4, h8]

/-- Witness for C10: a 4-byte read at offset 0xC. -/
theorem undefined_offset_read_witness :
    pcie_ats_mmio_read (dev_of 0x1000 0x1) 0xC 4 = some 0xFFFFFFFFFFFFFFFF
    ∧ (0xFFFFFFFFFFFFFFFF : Nat) = 2 ^ 64 - 1 :=
  undefined_offset_read (dev_of 0x1000 0x1) 0xC 4 (by decide) (by decide) (by decide)

/-! ## More facts about the register block and the bottom half -/

theorem stl_cmd (c v : Nat) : stl_le_p 4 c 0 v = v % 2 ^ 32 := by
  simp only [stl_le_p, st_le]
  norm_num
  omega

theorem write_undefined (s : PCIeATSState) (addr val size : Nat)
    (h0 : addr ≠ 0x0) (h4 : addr ≠ 0x4) (h8 : addr ≠ 0x8) :
    pcie_ats_mmio_write s addr val size = some (s, 0) := by
  simp [pcie_ats_mmio_write, h0, h4, h8]

theorem write_keeps_rest (s : PCIeATSState) (addr val size : Nat)
    (p : PCIeATSState × Nat) (h : pcie_ats_mmio_write s addr val size = some p) :
    p.1.dma.buf = s.dma.buf
    ∧ (addr ≠ 0x8 → p.1.dma.cmd = s.dma.cmd ∧ p.2 = 0)
    ∧ (addr = 0x8 → p.1.dma.addr = s.dma.addr) := by
  unfold pcie_ats_mmio_write at h
  split at h
  · rename_i h0
    simp only [Option.map_eq_some'] at h
    obtain ⟨a, _, rfl⟩ := h
    subst h0
    simp
  · split at h
    · rename_i h4
      cases h
      subst h4
      simp
    · split at h
      · rename_i h8
        cases h
        simp [h8]
      · rename_i h8
        cases h
        simp [h8]

/-! ## Claims about triggers, frames, read-back and repeated retries -/

/-- C11 (R1, run trigger). A register write calls `qemu_bh_schedule` exactly
once when it is a write to offset 0x8 whose value has bit 0 set, and then the
stored command is the low 32 bits of the value written; every other write (a
command write with bit 0 clear, or any other offset) that returns makes no
such call. -/
theorem run_trigger (s : PCIeATSState) (addr val size : Nat) :
    (addr = 0x8 ∧ val &&& PCIE_ATS_DMA_RUN ≠ 0 →
      pcie_ats_mmio_write s addr val size
        = some ({ dma := { addr := s.dma.addr, cmd := val % 2 ^ 32, buf := s.dma.buf } }, 1))
    ∧ (¬ (addr = 0x8 ∧ val &&& PCIE_ATS_DMA_RUN ≠ 0) →
      ∀ p, pcie_ats_mmio_write s addr val size = some p → p.2 = 0)
    ∧ (addr = 0x8 ∧ val &&& PCIE_ATS_DMA_RUN = 0 →
      pcie_ats_mmio_write s addr val size
        = some ({ dma := { addr := s.dma.addr, cmd := val % 2 ^ 32, buf := s.dma.buf } }, 0)) := by
  refine ⟨?_, ?_, ?_⟩
  · rintro ⟨rfl, hv⟩
    simp [pcie_ats_mmio_write, stl_cmd, hv]
  · intro hn p hp
    by_cases h8 : addr = 0x8
    · subst h8
      have hv : val &&& PCIE_ATS_DMA_RUN = 0 := by
        by_contra hc
        exact hn ⟨rfl, hc⟩
      simp [pcie_ats_mmio_write, hv] at hp
      rw [← hp]
    · exact ((write_keeps_rest s addr val size p hp).2.1 h8).2
  · rintro ⟨rfl, hv⟩
    simp [pcie_ats_mmio_write, stl_cmd, hv]

/-- Witness for C11: the value 0x1_0000_0003 written at offset 0x8 schedules
once and stores 0x3; the value 0x2 at offset 0x8 and the value 0x1 at offset
0x0 schedule nothing. -/
theorem run_trigger_witness :
    pcie_ats_mmio_write (dev_of 0x1000 0) 0x8 0x100000003 4
      = some ({ dma := { addr := (dev_of 0x1000 0).dma.addr, cmd := 0x100000003 % 2 ^ 32,
                         buf := (dev_of 0x1000 0).dma.buf } }, 1)
    ∧ (∀ p, pcie_ats_mmio_write (dev_of 0x1000 0) 0x8 0x2 4 = some p → p.2 = 0)
    ∧ (∀ p, pcie_ats_mmio_write (dev_of 0x1000 0) 0x0 0x1 4 = some p → p.2 = 0) :=
  ⟨(run_trigger (dev_of 0x1000 0) 0x8 0x100000003 4).1 ⟨rfl, by decide⟩,
   (run_trigger (dev_of 0x1000 0) 0x8 0x2 4).2.1 (by decide),
   (run_trigger (dev_of 0x1000 0) 0x0 0x1 4).2.1 (by decide)⟩

/-- C12 (writes to undefined offsets are ignored). For every device state,
value and access size, and every offset other than 0x0, 0x4 and 0x8, the write
returns with `addr`, `cmd` and `buf` unchanged and schedules nothing. -/
theorem undefined_offset_write (s : PCIeATSState) (addr val size : Nat)
    (h0 : addr ≠ 0x0) (h4 : addr ≠ 0x4) (h8 : addr ≠ 0x8) :
    pcie_ats_mmio_write s addr val size = some (s, 0) :=
  write_undefined s addr val size h0 h4 h8

/-- Witness for C12: an 8-byte write of a value with bit 0 set at offset
0x10. -/
theorem undefined_offset_write_witness :
    pcie_ats_mmio_write (dev_of 0x1000 0x2) 0x10 0xFFFFFFFFFFFFFFFF 8
      = some (dev_of 0x1000 0x2, 0) :=
  undefined_offset_write (dev_of 0x1000 0x2) 0x10 0xFFFFFFFFFFFFFFFF 8
    (by decide) (by decide) (by decide)

/-- C13 (one full-size attempt per invocation). With the run bit set, one
invocation of the bottom half calls the transfer primitive exactly once, at
`addr`, with length `BUF_SIZE` = 4096 and on the whole buffer (the buffer
afterwards is the one the primitive returns for `buf`), and calls the
translation request at most once: exactly once if and only if the transfer
result is `MEMTX_ACCESS_ERROR`. -/
theorem one_attempt_per_invocation {W : Type} (env : Collab W) (s : PCIeATSState) (w : W)
    (hrun : s.dma.cmd &&& PCIE_ATS_DMA_RUN ≠ 0) :
    transfers (pcie_ats_dma_bh env s w).calls
      = [Call.pci_dma_rw s.dma.addr BUF_SIZE (dma_dir s.dma.cmd)
          (env.pci_dma_rw w s.dma.addr s.dma.buf BUF_SIZE (dma_dir s.dma.cmd)).1]
    ∧ BUF_SIZE = 4096
    ∧ (pcie_ats_dma_bh env s w).state.dma.buf
      = (env.pci_dma_rw w s.dma.addr s.dma.buf BUF_SIZE (dma_dir s.dma.cmd)).2.1
    ∧ (page_requests (pcie_ats_dma_bh env s w).calls).length ≤ 1
    ∧ ((page_requests (pcie_ats_dma_bh env s w).calls).length = 1
        ↔ (env.pci_dma_rw w s.dma.addr s.dma.buf BUF_SIZE (dma_dir s.dma.cmd)).1
            = MEMTX_ACCESS_ERROR) := by
  by_cases hres : (env.pci_dma_rw w s.dma.addr s.dma.buf BUF_SIZE (dma_dir s.dma.cmd)).1
      = MEMTX_ACCESS_ERROR
  · by_cases hret : (env.pcie_ats_page_request
        (env.pci_dma_rw w s.dma.addr s.dma.buf BUF_SIZE (dma_dir s.dma.cmd)).2.2
        s.dma.addr (dma_flags s.dma.cmd)).1 = 0
    · rw [bh_accepted env s w hrun hres hret]
      simp [transfers, page_requests, hres]
      rfl
    · rw [bh_rejected env s w hrun hres hret]
      simp [transfers, page_requests, hres, clear_run]
      rfl
  · rw [bh_terminal env s w hrun hres]
    simp [transfers, page_requests, hres, clear_run]
    rfl

/-- Witness for C13: a faulting transfer with an accepted request. -/
theorem one_attempt_per_invocation_witness :
    (dev_of 0x1000 0x1).dma.cmd &&& PCIE_ATS_DMA_RUN ≠ 0
    ∧ transfers (pcie_ats_dma_bh (env_const MEMTX_ACCESS_ERROR 0) (dev_of 0x1000 0x1) ()).calls
      = [Call.pci_dma_rw 0x1000 4096 DMADirection.DMA_DIRECTION_FROM_DEVICE
          MEMTX_ACCESS_ERROR]
    ∧ (page_requests
        (pcie_ats_dma_bh (env_const MEMTX_ACCESS_ERROR 0) (dev_of 0x1000 0x1) ()).calls).length
      ≤ 1 :=
  ⟨by decide,
   (one_attempt_per_invocation (env_const MEMTX_ACCESS_ERROR 0) (dev_of 0x1000 0x1) ()
      (by decide)).1,
   (one_attempt_per_invocation (env_const MEMTX_ACCESS_ERROR 0) (dev_of 0x1000 0x1) ()
      (by decide)).2.2.2.1⟩

/-- C14 (buffer is mutated only by the DMA engine). No register access changes
the buffer: for every state, offset, size and value, a write that returns
leaves all `BUF_SIZE` buffer bytes as they were, and a read leaves the whole
device state (`addr`, `cmd`, `buf`) as it was and returns the value of
`pcie_ats_mmio_read`. -/
theorem register_access_keeps_buffer (s : PCIeATSState) (addr val size : Nat) :
    (∀ p, pcie_ats_mmio_write s addr val size = some p →
      ∀ i : Fin BUF_SIZE, p.1.dma.buf i = s.dma.buf i)
    ∧ (size = 4 ∨ size = 8 → ∃ p, pcie_ats_mmio_write s addr val size = some p)
    ∧ (pcie_ats_mmio_read_state s addr size).1 = s
    ∧ (pcie_ats_mmio_read_state s addr size).2 = pcie_ats_mmio_read s addr size := by
  refine ⟨?_, ?_, ?_, ?_⟩
  · intro p hp i
    rw [(write_keeps_rest s addr val size p hp).1]
  · intro hsz
    unfold pcie_ats_mmio_write
    split
    · rcases hsz with h | h <;> simp [stn_le_p, h]
    · split
      · exact ⟨_, rfl⟩
      · split
        · exact ⟨_, rfl⟩
        · exact ⟨_, rfl⟩
  · unfold pcie_ats_mmio_read_state
    split
    · rfl
    · split
      · rfl
      · split <;> rfl
  · unfold pcie_ats_mmio_read_state pcie_ats_mmio_read
    split
    · rfl
    · split
      · rfl
      · split <;> rfl

/-- Witness for C14: a run trigger written over a buffer of zeros. -/
theorem register_access_keeps_buffer_witness :
    (∃ p, pcie_ats_mmio_write (dev_of 0x1000 0) 0x8 0x1 4 = some p)
    ∧ (pcie_ats_mmio_read_state (dev_of 0x1000 0) 0x8 4).1 = dev_of 0x1000 0 :=
  ⟨(register_access_keeps_buffer (dev_of 0x1000 0) 0x8 0x1 4).2.1 (Or.inl rfl),
   (register_access_keeps_buffer (dev_of 0x1000 0) 0x8 0x1 4).2.2.1⟩

/-! ## Bits of the command word and sign extension of 32-bit loads -/

theorem clear_run_testBit (s : PCIeATSState) (h : s.dma.cmd < 2 ^ 32) (i : Nat)
    (hi : i ≠ 0) : (clear_run s).dma.cmd.testBit i = s.dma.cmd.testBit i := by
  simp only [clear_run]
  rw [Nat.testBit_and]
  by_cases h32 : i < 32
  · have hk : (0xFFFFFFFE : Nat).testBit i = true := by
      interval_cases i
      · exact absurd rfl hi
      all_goals rfl
    rw [hk, Bool.and_true]
  · have hc : s.dma.cmd.testBit i = false := by
      apply Nat.testBit_lt_two_pow
      calc s.dma.cmd < 2 ^ 32 := h
        _ ≤ 2 ^ i := Nat.pow_le_pow_right (by norm_num) (by omega)
    rw [hc, Bool.false_and]

theorem ld_le_four_lt (f off : Nat) : ld_le f off 4 < 2 ^ 32 := by
  simp only [ld_le]
  exact Nat.mod_lt _ (by norm_num)

theorem ldl_low_bits (f off : Nat) :
    to_uint64 (ldl_le_p f off) % 2 ^ 32 = ld_le f off 4
    ∧ (ld_le f off 4 < 2 ^ 31 → to_uint64 (ldl_le_p f off) = ld_le f off 4) := by
  have hlt := ld_le_four_lt f off
  simp only [ldl_le_p, to_uint64]
  generalize ld_le f off 4 = u at hlt ⊢
  constructor
  · split <;> omega
  · intro h
    rw [if_pos h]
    omega

/-- C15 (engine frame on registers). For every device state (the command a
32-bit word) and every outcome of the collaborators, one invocation of the
bottom half leaves `addr` unchanged, leaves every bit of `cmd` other than bit
0 unchanged, and never turns bit 0 from 0 to 1; the run bit is 1 afterwards
if and only if it was 1 before, the transfer result was `MEMTX_ACCESS_ERROR`
and the translation request was accepted. -/
theorem bh_register_frame {W : Type} (env : Collab W) (s : PCIeATSState) (w : W)
    (hcmd : s.dma.cmd < 2 ^ 32) :
    (pcie_ats_dma_bh env s w).state.dma.addr = s.dma.addr
    ∧ (∀ i, i ≠ 0 →
        (pcie_ats_dma_bh env s w).state.dma.cmd.testBit i = s.dma.cmd.testBit i)
    ∧ (s.dma.cmd &&& PCIE_ATS_DMA_RUN = 0 →
        (pcie_ats_dma_bh env s w).state.dma.cmd &&& PCIE_ATS_DMA_RUN = 0)
    ∧ ((pcie_ats_dma_bh env s w).state.dma.cmd &&& PCIE_ATS_DMA_RUN = 1
        ↔ s.dma.cmd &&& PCIE_ATS_DMA_RUN = 1
          ∧ (env.pci_dma_rw w s.dma.addr s.dma.buf BUF_SIZE (dma_dir s.dma.cmd)).1
              = MEMTX_ACCESS_ERROR
          ∧ (env.pcie_ats_page_request
              (env.pci_dma_rw w s.dma.addr s.dma.buf BUF_SIZE (dma_dir s.dma.cmd)).2.2
              s.dma.addr (dma_flags s.dma.cmd)).1 = 0) := by
  by_cases hrun : s.dma.cmd &&& PCIE_ATS_DMA_RUN = 0
  · rw [bh_idle env s w hrun]
    simp [hrun]
  · have hone : s.dma.cmd &&& PCIE_ATS_DMA_RUN = 1 := by
      rw [and_run_eq] at hrun ⊢
      omega
    by_cases hres : (env.pci_dma_rw w s.dma.addr s.dma.buf BUF_SIZE (dma_dir s.dma.cmd)).1
        = MEMTX_ACCESS_ERROR
    · by_cases hret : (env.pcie_ats_page_request
          (env.pci_dma_rw w s.dma.addr s.dma.buf BUF_SIZE (dma_dir s.dma.cmd)).2.2
          s.dma.addr (dma_flags s.dma.cmd)).1 = 0
      · rw [bh_accepted env s w hrun hres hret]
        simp [hone, hres, hret]
      · rw [bh_rejected env s w hrun hres hret]
        refine ⟨rfl, fun i hi => clear_run_testBit _ hcmd i hi,
          fun _ => clear_run_bit _, ?_⟩
        rw [clear_run_bit]
        simp [hret]
    · rw [bh_terminal env s w hrun hres]
      refine ⟨rfl, fun i hi => clear_run_testBit _ hcmd i hi,
        fun _ => clear_run_bit _, ?_⟩
      rw [clear_run_bit]
      simp [hres]

/-- Witness for C15: command 0x80000003 with a transfer that succeeds. -/
theorem bh_register_frame_witness :
    (dev_of 0x1000 0x80000003).dma.cmd < 2 ^ 32
    ∧ (pcie_ats_dma_bh (env_const MEMTX_OK 0) (dev_of 0x1000 0x80000003) ()).state.dma.addr
      = (dev_of 0x1000 0x80000003).dma.addr
    ∧ (∀ i, i ≠ 0 →
        (pcie_ats_dma_bh (env_const MEMTX_OK 0)
          (dev_of 0x1000 0x80000003) ()).state.dma.cmd.testBit i
        = (dev_of 0x1000 0x80000003).dma.cmd.testBit i) :=
  ⟨by decide,
   (bh_register_frame (env_const MEMTX_OK 0) (dev_of 0x1000 0x80000003) () (by decide)).1,
   (bh_register_frame (env_const MEMTX_OK 0) (dev_of 0x1000 0x80000003) () (by decide)).2.1⟩

/-- C16 (register read-back round trip). For every device state (the address
a 64-bit word) and 64-bit value `v`: an 8-byte write of `v` at offset 0x0
followed by an 8-byte read at 0x0 returns `v`; a 4-byte write of `v` at 0x0,
0x4 or 0x8 followed by a 4-byte read at the same offset returns `v mod 2^32`;
and a 4-byte read at 0x0 and at 0x4 return the low and the high 32 bits of
`addr`. A read of `size` bytes returns the low `size` bytes of the handler
result (`mmio_read_access`); at offset 0x0 the handler result itself is that
value. -/
theorem register_readback (s : PCIeATSState) (v : Nat) (hv : v < 2 ^ 64)
    (haddr : s.dma.addr < 2 ^ 64) :
    (∃ p, pcie_ats_mmio_write s 0x0 v 8 = some p
      ∧ mmio_read_access p.1 0x0 8 = some v
      ∧ pcie_ats_mmio_read p.1 0x0 8 = some v)
    ∧ (∃ p, pcie_ats_mmio_write s 0x0 v 4 = some p
      ∧ mmio_read_access p.1 0x0 4 = some (v % 2 ^ 32)
      ∧ pcie_ats_mmio_read p.1 0x0 4 = some (v % 2 ^ 32))
    ∧ (∃ p, pcie_ats_mmio_write s 0x4 v 4 = some p
      ∧ mmio_read_access p.1 0x4 4 = some (v % 2 ^ 32))
    ∧ (∃ p, pcie_ats_mmio_write s 0x8 v 4 = some p
      ∧ mmio_read_access p.1 0x8 4 = some (v % 2 ^ 32))
    ∧ mmio_read_access s 0x0 4 = some (s.dma.addr % 2 ^ 32)
    ∧ mmio_read_access s 0x4 4 = some (s.dma.addr / 2 ^ 32) := by
  refine ⟨?_, ?_, ?_, ?_, ?_, ?_⟩
  · refine ⟨_, write_addr8 s v hv, ?_⟩
    have h : ld_le v 0 8 = v := by
      simp only [ld_le]
      norm_num
      omega
    have hm : v % 2 ^ (8 * 8) = v := by
      norm_num
      omega
    have hr : pcie_ats_mmio_read { dma := { addr := v, cmd := s.dma.cmd, buf := s.dma.buf } }
        0x0 8 = some v := by
      simp [pcie_ats_mmio_read, ldn_le_p, h]
    refine ⟨?_, hr⟩
    rw [mmio_read_access, hr]
    show some (v % 2 ^ (8 * 8)) = some v
    rw [hm]
  · have h : ld_le (st_le 8 s.dma.addr 0 4 v) 0 4 = v % 2 ^ 32 := by
      simp only [ld_le, st_le]
      norm_num
      omega
    refine ⟨({ dma := { s.dma with addr := st_le 8 s.dma.addr 0 4 v } }, 0), ?_, ?_, ?_⟩
    · simp [pcie_ats_mmio_write, stn_le_p]
    · simp [mmio_read_access, pcie_ats_mmio_read, ldn_le_p, h]
    · simp [pcie_ats_mmio_read, ldn_le_p, h]
  · have h : ld_le (stl_le_p 8 s.dma.addr 4 v) 4 4 = v % 2 ^ 32 := by
      simp only [ld_le, stl_le_p, st_le]
      norm_num
      omega
    have hl := (ldl_low_bits (stl_le_p 8 s.dma.addr 4 v) 4).1
    rw [h] at hl
    refine ⟨({ dma := { s.dma with addr := stl_le_p 8 s.dma.addr 4 v } }, 0), ?_, ?_⟩
    · simp [pcie_ats_mmio_write]
    · simpa [mmio_read_access, pcie_ats_mmio_read] using hl
  · have h : ld_le (stl_le_p 4 s.dma.cmd 0 v) 0 4 = v % 2 ^ 32 := by
      rw [stl_cmd]
      simp only [ld_le]
      norm_num
    have hl := (ldl_low_bits (stl_le_p 4 s.dma.cmd 0 v) 0).1
    rw [h] at hl
    refine ⟨({ dma := { s.dma with cmd := stl_le_p 4 s.dma.cmd 0 v } },
      if v &&& PCIE_ATS_DMA_RUN ≠ 0 then 1 else 0), ?_, ?_⟩
    · simp [pcie_ats_mmio_write]
    · simpa [mmio_read_access, pcie_ats_mmio_read] using hl
  · have h : ld_le s.dma.addr 0 4 = s.dma.addr % 2 ^ 32 := by
      simp only [ld_le]
      norm_num
    simp [mmio_read_access, pcie_ats_mmio_read, ldn_le_p, h]
  · have h : ld_le s.dma.addr 4 4 = s.dma.addr / 2 ^ 32 := by
      simp only [ld_le]
      norm_num
      omega
    have hl := (ldl_low_bits s.dma.addr 4).1
    rw [h] at hl
    simpa [mmio_read_access, pcie_ats_mmio_read] using hl

/-- Witness for C16: the value 0xFFEEDDCC99887766, with bit 31 and bit 63 set,
over a device whose address has bit 63 set. -/
theorem register_readback_witness :
    (0xFFEEDDCC99887766 : Nat) < 2 ^ 64
    ∧ (dev_of 0x8000000000001000 0).dma.addr < 2 ^ 64
    ∧ (∃ p, pcie_ats_mmio_write (dev_of 0x8000000000001000 0) 0x8 0xFFEEDDCC99887766 4
          = some p
      ∧ mmio_read_access p.1 0x8 4 = some (0xFFEEDDCC99887766 % 2 ^ 32))
    ∧ mmio_read_access (dev_of 0x8000000000001000 0) 0x4 4
      = some ((dev_of 0x8000000000001000 0).dma.addr / 2 ^ 32) :=
  ⟨by norm_num, by decide,
   (register_readback (dev_of 0x8000000000001000 0) 0xFFEEDDCC99887766
      (by norm_num) (by decide)).2.2.2.1,
   (register_readback (dev_of 0x8000000000001000 0) 0xFFEEDDCC99887766
      (by norm_num) (by decide)).2.2.2.2.2⟩

/-! ## Repeated retries -/

theorem all_calls_cons {W : Type} (r : BhOutcome W) (rs : List (BhOutcome W)) :
    all_calls (r :: rs) = r.calls ++ all_calls rs := by
  simp [all_calls]

theorem run_bit_one (c : Nat) (h : c &&& PCIE_ATS_DMA_RUN ≠ 0) :
    c &&& PCIE_ATS_DMA_RUN = 1 := by
  rw [and_run_eq] at h ⊢
  omega

theorem run_cons {W : Type} (env : Collab W) (m : Machine W) (e : Event)
    (es : List Event) :
    run env m (e :: es) = (step env m e).bind (fun m1 => run env m1 es) := rfl

theorem step_bh_fire {W : Type} (env : Collab W) (s : PCIeATSState) (w : W) (n : Nat) :
    step env { dev := s, world := w, bh_scheduled := true, outstanding := n } Event.bh
      = some { dev := (pcie_ats_dma_bh env s w).state,
               world := (pcie_ats_dma_bh env s w).world,
               bh_scheduled := false,
               outstanding := n + accepted (pcie_ats_dma_bh env s w).calls } := by
  simp [step]

theorem step_resume_fire {W : Type} (env : Collab W) (s : PCIeATSState) (w : W)
    (b : Bool) (n : Nat) :
    step env { dev := s, world := w, bh_scheduled := b, outstanding := n + 1 } Event.resume
      = some { dev := (pcie_ats_dma_bh env s w).state,
               world := (pcie_ats_dma_bh env s w).world,
               bh_scheduled := b,
               outstanding := n + accepted (pcie_ats_dma_bh env s w).calls } := by
  simp [step]

/-- The trace of `n` faulting attempts followed by a successful one. -/
theorem retries_trace {W : Type} (env : Collab W) (n : Nat) :
    ∀ (s : PCIeATSState) (w : W), s.dma.cmd &&& PCIE_ATS_DMA_RUN ≠ 0 →
      faults_then_ok env n s w = true →
      (transfers (all_calls (invocations env n s w))).length = n + 1
      ∧ (page_requests (all_calls (invocations env n s w))).length = n
      ∧ accepted (all_calls (invocations env n s w)) = n
      ∧ (∀ i, i < n → ∃ r, (invocations env n s w)[i]? = some r
          ∧ r.state.dma.cmd &&& PCIE_ATS_DMA_RUN = 1)
      ∧ (∃ r, (invocations env n s w)[n]? = some r
          ∧ r.state.dma.cmd &&& PCIE_ATS_DMA_RUN = 0) := by
  induction n with
  | zero =>
    intro s w hrun hf
    simp only [faults_then_ok, decide_eq_true_eq] at hf
    have hne : (env.pci_dma_rw w s.dma.addr s.dma.buf BUF_SIZE (dma_dir s.dma.cmd)).1
        ≠ MEMTX_ACCESS_ERROR := by
      rw [hf]; decide
    have e := bh_terminal env s w hrun hne
    simp only [invocations, all_calls_cons, e]
    refine ⟨by simp [all_calls, transfers], by simp [all_calls, page_requests],
      by simp [all_calls, accepted], fun i hi => absurd hi (Nat.not_lt_zero i), ?_⟩
    exact ⟨_, rfl, clear_run_bit _⟩
  | succ k ih =>
    intro s w hrun hf
    simp only [faults_then_ok, Bool.and_eq_true, decide_eq_true_eq] at hf
    obtain ⟨⟨hres, hret⟩, hrest⟩ := hf
    have e := bh_accepted env s w hrun hres hret
    have hrun1 : (pcie_ats_dma_bh env s w).state.dma.cmd &&& PCIE_ATS_DMA_RUN ≠ 0 := by
      rw [e]; exact hrun
    obtain ⟨h1, h2, h3, h4, h5⟩ :=
      ih (pcie_ats_dma_bh env s w).state (pcie_ats_dma_bh env s w).world hrun1 hrest
    have hc : (pcie_ats_dma_bh env s w).calls
        = [Call.pci_dma_rw s.dma.addr BUF_SIZE (dma_dir s.dma.cmd) MEMTX_ACCESS_ERROR,
            Call.pcie_ats_page_request s.dma.addr (dma_flags s.dma.cmd) 0] := by
      rw [e]
    simp only [invocations, all_calls_cons]
    refine ⟨?_, ?_, ?_, ?_, ?_⟩
    · simp only [transfers, List.filter_append, List.length_append] at h1 ⊢
      rw [h1, hc]
      simp
      omega
    · simp only [page_requests, List.filter_append, List.length_append] at h2 ⊢
      rw [h2, hc]
      simp
      omega
    · simp only [accepted, List.filter_append, List.length_append] at h3 ⊢
      rw [h3, hc]
      simp
      omega
    · intro i hi
      cases i with
      | zero =>
        exact ⟨pcie_ats_dma_bh env s w, by simp, run_bit_one _ hrun1⟩
      | succ j =>
        simpa using h4 j (by omega)
    · simpa using h5

/-- The machine while the retries go on: `n` more faulting attempts and a
successful one, each started by a resume callback. -/
theorem resume_chain {W : Type} (env : Collab W) (n : Nat) :
    ∀ (s : PCIeATSState) (w : W), s.dma.cmd &&& PCIE_ATS_DMA_RUN ≠ 0 →
      faults_then_ok env n s w = true →
      ∃ m, run env { dev := s, world := w, bh_scheduled := false, outstanding := 1 }
          (List.replicate (n + 1) Event.resume) = some m
        ∧ m.dev.dma.cmd &&& PCIE_ATS_DMA_RUN = 0
        ∧ m.bh_scheduled = false ∧ m.outstanding = 0 := by
  induction n with
  | zero =>
    intro s w hrun hf
    simp only [faults_then_ok, decide_eq_true_eq] at hf
    have hne : (env.pci_dma_rw w s.dma.addr s.dma.buf BUF_SIZE (dma_dir s.dma.cmd)).1
        ≠ MEMTX_ACCESS_ERROR := by
      rw [hf]; decide
    have e := bh_terminal env s w hrun hne
    have hacc : accepted (pcie_ats_dma_bh env s w).calls = 0 := by
      rw [e]; simp [accepted]
    refine ⟨_, by rw [List.replicate_succ, run_cons, step_resume_fire env s w false 0]; rfl,
      ?_, rfl, ?_⟩
    · simp only [e]; exact clear_run_bit _
    · simp only [hacc]
  | succ k ih =>
    intro s w hrun hf
    simp only [faults_then_ok, Bool.and_eq_true, decide_eq_true_eq] at hf
    obtain ⟨⟨hres, hret⟩, hrest⟩ := hf
    have e := bh_accepted env s w hrun hres hret
    have hrun1 : (pcie_ats_dma_bh env s w).state.dma.cmd &&& PCIE_ATS_DMA_RUN ≠ 0 := by
      rw [e]; exact hrun
    have hacc : accepted (pcie_ats_dma_bh env s w).calls = 1 := by
      rw [e]; simp [accepted]
    obtain ⟨m, hm, hprops⟩ :=
      ih (pcie_ats_dma_bh env s w).state (pcie_ats_dma_bh env s w).world hrun1 hrest
    refine ⟨m, ?_, hprops⟩
    rw [List.replicate_succ, run_cons, step_resume_fire env s w false 0, hacc]
    exact hm

/-- C17 (retries are unbounded). For every `n`: if, starting from a device
with the run bit set, the transfer fails with `MEMTX_ACCESS_ERROR` on the
first `n` attempts, each translation request is accepted and later resumed,
and attempt `n + 1` returns `MEMTX_OK`, then the bottom half makes exactly
`n + 1` transfer attempts and exactly `n` translation requests (all of them
accepted); the run bit is 1 after each of the first `n` invocations and 0
after invocation `n + 1`; and the scheduled firing followed by the `n` resume
callbacks runs to a machine with the run bit 0 and nothing scheduled or
outstanding. No counter stops the retries earlier. -/
theorem unbounded_retries {W : Type} (env : Collab W) (n : Nat) (s : PCIeATSState) (w : W)
    (hrun : s.dma.cmd &&& PCIE_ATS_DMA_RUN ≠ 0)
    (hscen : faults_then_ok env n s w = true) :
    (transfers (all_calls (invocations env n s w))).length = n + 1
    ∧ (page_requests (all_calls (invocations env n s w))).length = n
    ∧ accepted (all_calls (invocations env n s w)) = n
    ∧ (∀ i, i < n → ∃ r, (invocations env n s w)[i]? = some r
        ∧ r.state.dma.cmd &&& PCIE_ATS_DMA_RUN = 1)
    ∧ (∃ r, (invocations env n s w)[n]? = some r
        ∧ r.state.dma.cmd &&& PCIE_ATS_DMA_RUN = 0)
    ∧ (∃ m, run env { dev := s, world := w, bh_scheduled := true, outstanding := 0 }
          (Event.bh :: List.replicate n Event.resume) = some m
        ∧ m.dev.dma.cmd &&& PCIE_ATS_DMA_RUN = 0
        ∧ m.bh_scheduled = false ∧ m.outstanding = 0) := by
  obtain ⟨h1, h2, h3, h4, h5⟩ := retries_trace env n s w hrun hscen
  refine ⟨h1, h2, h3, h4, h5, ?_⟩
  cases n with
  | zero =>
    simp only [faults_then_ok, decide_eq_true_eq] at hscen
    have hne : (env.pci_dma_rw w s.dma.addr s.dma.buf BUF_SIZE (dma_dir s.dma.cmd)).1
        ≠ MEMTX_ACCESS_ERROR := by
      rw [hscen]; decide
    have e := bh_terminal env s w hrun hne
    have hacc : accepted (pcie_ats_dma_bh env s w).calls = 0 := by
      rw [e]; simp [accepted]
    refine ⟨_, by rw [run_cons, step_bh_fire]; rfl, ?_, rfl, ?_⟩
    · simp only [e]; exact clear_run_bit _
    · simp only [hacc]
  | succ k =>
    simp only [faults_then_ok, Bool.and_eq_true, decide_eq_true_eq] at hscen
    obtain ⟨⟨hres, hret⟩, hrest⟩ := hscen
    have e := bh_accepted env s w hrun hres hret
    have hrun1 : (pcie_ats_dma_bh env s w).state.dma.cmd &&& PCIE_ATS_DMA_RUN ≠ 0 := by
      rw [e]; exact hrun
    have hacc : accepted (pcie_ats_dma_bh env s w).calls = 1 := by
      rw [e]; simp [accepted]
    obtain ⟨m, hm, hprops⟩ :=
      resume_chain env k (pcie_ats_dma_bh env s w).state (pcie_ats_dma_bh env s w).world
        hrun1 hrest
    refine ⟨m, ?_, hprops⟩
    rw [run_cons, step_bh_fire, hacc]
    exact hm

/-- Witness for C17: three missing translations, each supplied by an accepted
request. -/
theorem unbounded_retries_witness :
    (dev_of 0x1000 0x1).dma.cmd &&& PCIE_ATS_DMA_RUN ≠ 0
    ∧ faults_then_ok env_faults 3 (dev_of 0x1000 0x1) 3 = true
    ∧ (transfers (all_calls (invocations env_faults 3 (dev_of 0x1000 0x1) 3))).length = 3 + 1
    ∧ (page_requests (all_calls (invocations env_faults 3 (dev_of 0x1000 0x1) 3))).length = 3 :=
  ⟨by decide, rfl,
   (unbounded_retries env_faults 3 (dev_of 0x1000 0x1) 3 (by decide) rfl).1,
   (unbounded_retries env_faults 3 (dev_of 0x1000 0x1) 3 (by decide) rfl).2.1⟩

end PcieAts
